import Mathlib

/-!
Verification development for the HURDAT2 ingestion script (`__main__.py`).

The script has two phases:
* `process_file` — reads the HURDAT2 text file line by line, classifying each
  line by its comma-separated field count (4 fields = storm header, anything
  else = observation row) and extracting raw fields;
* `clean_data` — normalizes the extracted rows: builds `point_time` strings and
  parses them, decodes the `identifier` / `status` code columns through the two
  fixed dictionaries via `DataFrame.replace`, converts the `-99` / `-999`
  sentinels to missing, and derives per-storm `start_time` and `path` geometry
  by grouping observations on `event_id` in first-appearance order.

Python `float` values are modelled as rationals (`ℚ`): all arithmetic the
script performs on them is sign flipping, which is exact.  Missing values
(`pd.NA`) are modelled with `Option`.  Fallible steps return `Option` /
`Except`; a Python exception (ValueError, IndexError, pandas length-mismatch)
is an `Except.error`.
-/

/-- Python's `str.lstrip(" ")`: drop leading space characters (spaces only,
exactly as the script writes it). -/
def stripSp (s : String) : String := String.mk (s.toList.dropWhile (· = ' '))

/-- Surrounding-whitespace strip on a character list, as Python's `int` and
`float` perform before parsing. -/
def pyTrimChars (cs : List Char) : List Char :=
  ((cs.dropWhile Char.isWhitespace).reverse.dropWhile Char.isWhitespace).reverse

/-- One step of splitting a line at commas, accumulating the current field's
characters in reverse. -/
def splitCommaAux : List Char → List Char → List String
  | [], acc => [String.mk acc.reverse]
  | c :: rest, acc =>
    if c = ',' then String.mk acc.reverse :: splitCommaAux rest []
    else splitCommaAux rest (c :: acc)

/-- Python's `row.split(",")`: split at every comma, keeping empty pieces
(an empty string yields one empty field). -/
def splitComma (s : String) : List String := splitCommaAux s.toList []

/-- Digits of a numeral, most significant first, folded to a `Nat`.  Assumes
the characters are decimal digits. -/
def natOfDigits (cs : List Char) : Nat :=
  cs.foldl (fun a c => a * 10 + (c.toNat - 48)) 0

/-- Parse a nonempty all-digit character list; `none` otherwise. -/
def digitsToNat? (cs : List Char) : Option Nat :=
  if cs ≠ [] ∧ cs.all Char.isDigit then some (natOfDigits cs) else none

/-- Python's `int(s)` on a string: strip surrounding whitespace, optional
sign, then a nonempty run of decimal digits. -/
def pyInt? (s : String) : Option Int :=
  match pyTrimChars s.toList with
  | '-' :: rest => (digitsToNat? rest).map (fun n => -(n : Int))
  | '+' :: rest => (digitsToNat? rest).map (fun n => (n : Int))
  | t => (digitsToNat? t).map (fun n => (n : Int))

/-- Apply a decimal exponent (an optionally signed digit run) to an already
parsed mantissa: scale the numerator or the denominator by the power of ten
(`mkRat` renormalizes). -/
def expApply? (base : ℚ) (cs : List Char) : Option ℚ :=
  match cs with
  | '-' :: ds => (digitsToNat? ds).map (fun n => mkRat base.num (base.den * 10 ^ n))
  | '+' :: ds => (digitsToNat? ds).map (fun n => mkRat (base.num * 10 ^ n) base.den)
  | ds => (digitsToNat? ds).map (fun n => mkRat (base.num * 10 ^ n) base.den)

/-- Exponent tail of a Python float literal: empty, or `e`/`E` followed by an
optionally signed digit run. -/
def expTail? (base : ℚ) (cs : List Char) : Option ℚ :=
  match cs with
  | [] => some base
  | 'e' :: rest => expApply? base rest
  | 'E' :: rest => expApply? base rest
  | _ => none

/-- Unsigned decimal part of a Python float literal: `digits`, `digits.`,
`.digits` or `digits.digits`, with an optional exponent tail.  The value is
`integer-part-digits ++ fraction-digits` over `10 ^ (fraction length)`. -/
def decimal? (cs : List Char) : Option ℚ :=
  let ip := cs.takeWhile Char.isDigit
  let rest := cs.dropWhile Char.isDigit
  match rest with
  | '.' :: rest2 =>
    let fp := rest2.takeWhile Char.isDigit
    let rest3 := rest2.dropWhile Char.isDigit
    if ip = [] ∧ fp = [] then none
    else expTail? (mkRat (natOfDigits (ip ++ fp)) (10 ^ fp.length)) rest3
  | _ =>
    if ip = [] then none
    else expTail? (mkRat (natOfDigits ip) 1) rest

/-- Python's `float(s)` on a finite decimal literal: strip surrounding
whitespace, optional sign, decimal digits with optional fraction and
exponent.  (`inf` / `nan` forms are not modelled; no HURDAT2 field uses
them and every claim concerns finite decimals.) -/
def pyFloat? (s : String) : Option ℚ :=
  match pyTrimChars s.toList with
  | '-' :: rest => (decimal? rest).map Rat.neg
  | '+' :: rest => decimal? rest
  | t => decimal? t

/-- Python `datetime.datetime` value as produced by `dateutil.parser.isoparse`:
the wall-clock components plus the parsed timezone — `none` for a naive
result, `some off` for a fixed offset of `off` seconds east of UTC (`some 0`
for `tz.UTC`, which the `Z` suffix and all zero offsets yield). -/
structure PyDateTime where
  year : Nat
  month : Nat
  day : Nat
  hour : Nat
  minute : Nat
  second : Nat
  usec : Nat
  tzOff : Option Int
deriving DecidableEq, Repr

/-- Proleptic-Gregorian leap-year rule, as used by Python `datetime`. -/
def isLeap (y : Nat) : Bool :=
  (y % 4 = 0 && y % 100 ≠ 0) || y % 400 = 0

/-- Python `calendar.isleap` on an arbitrary integer year (Python `%` has
nonnegative results for a positive modulus, which is exactly `Int.emod`). -/
def isLeapI (y : Int) : Bool :=
  (y % 4 = 0 && y % 100 ≠ 0) || y % 400 = 0

/-- Days in a month of the proleptic Gregorian calendar (0 for an invalid
month number). -/
def daysInMonth (y m : Nat) : Nat :=
  if m = 1 ∨ m = 3 ∨ m = 5 ∨ m = 7 ∨ m = 8 ∨ m = 10 ∨ m = 12 then 31
  else if m = 4 ∨ m = 6 ∨ m = 9 ∨ m = 11 then 30
  else if m = 2 then (if isLeap y then 29 else 28)
  else 0

/-- Days from 0001-01-01 up to the start of year `y`, as CPython's
`datetime` module computes them (`_days_before_year`). -/
def daysBeforeYear (y : Nat) : Nat :=
  365 * (y - 1) + (y - 1) / 4 - (y - 1) / 100 + (y - 1) / 400

/-- Days from the start of year `y` up to the start of month `m`. -/
def daysBeforeMonth (y m : Nat) : Nat :=
  ((List.range (m - 1)).map (fun i => daysInMonth y (i + 1))).sum

/-- Rata-die ordinal of a calendar day (0001-01-01 is day 1), CPython's
`date.toordinal`; `date.max.toordinal()` is 3652059 (9999-12-31). -/
def toOrdinalDay (y m d : Nat) : Nat :=
  daysBeforeYear y + daysBeforeMonth y m + d

/-- ISO weekday (Monday = 1 … Sunday = 7) of a rata-die ordinal; day 1,
0001-01-01, is a Monday. -/
def isoWeekday (n : Nat) : Nat := (n - 1) % 7 + 1

/-- Walk the months of year `y` to locate a 0-based day-of-year offset (the
month loop of CPython's `_ord2ymd`); 12 steps always suffice for an offset
inside the year. -/
def monthWalk : Nat → Nat → Nat → Nat → Nat × Nat × Nat
  | y, m, doy, 0 => (y, m, doy + 1)
  | y, m, doy, fuel + 1 =>
    if doy < daysInMonth y m then (y, m, doy + 1)
    else monthWalk y (m + 1) (doy - daysInMonth y m) fuel

/-- Inverse of `toOrdinalDay` (CPython's `_ord2ymd`): peel off 400-, 100-,
4- and 1-year cycles, correct the two end-of-cycle cases, then walk the
months. -/
def ord2ymd (n : Nat) : Nat × Nat × Nat :=
  let n0 := n - 1
  let n400 := n0 / 146097
  let r1 := n0 % 146097
  let n100 := r1 / 36524
  let r2 := r1 % 36524
  let n4 := r2 / 1461
  let r3 := r2 % 1461
  let n1 := r3 / 365
  let r4 := r3 % 365
  let year := n400 * 400 + 1 + n100 * 100 + n4 * 4 + n1
  if n1 = 4 ∨ n100 = 4 then (year - 1, 12, 31)
  else monthWalk year 1 r4 12

/-- Python `int` applied to a character-list slice (as the byte-string
slices of `dateutil.parser.isoparser` are). -/
def pyIntOf? (cs : List Char) : Option Int := pyInt? (String.mk cs)

/-- dateutil `isoparser._parse_isodate_common`: positional `YYYY`,
`YYYY-MM`, `YYYY-MM-DD` / `YYYYMMDD` parse.  Every 2- or 4-character slice
goes through Python `int` (which strips surrounding whitespace); month and
day default to 1.  Returns the three still-unvalidated components and the
position after the date; `none` is the `ValueError` that sends
`_parse_isodate` to the uncommon-format parse. -/
def parseIsodateCommon? (cs : List Char) : Option (Int × Int × Int × Nat) :=
  if cs.length < 4 then none
  else
    match pyIntOf? (cs.take 4) with
    | none => none
    | some y =>
      if cs.length ≤ 4 then some (y, 1, 1, 4)
      else
        let hasSep : Bool := decide ((cs.drop 4).take 1 = ['-'])
        let pos := if hasSep then 5 else 4
        if cs.length - pos < 2 then none
        else
          match pyIntOf? ((cs.drop pos).take 2) with
          | none => none
          | some m =>
            if cs.length ≤ pos + 2 then
              if hasSep then some (y, m, 1, pos + 2) else none
            else
              match (if hasSep then
                      (if (cs.drop (pos + 2)).take 1 = ['-'] then some (pos + 3)
                       else none)
                     else some (pos + 2) : Option Nat) with
              | none => none
              | some pos2 =>
                if cs.length - pos2 < 2 then none
                else
                  match pyIntOf? ((cs.drop pos2).take 2) with
                  | none => none
                  | some d => some (y, m, d, pos2 + 2)

/-- dateutil `isoparser._calculate_weekdate`: the Monday of ISO week 1 is
found from January 4, then the week/day offset is added.  Week and weekday
are range-checked first; a year outside 1–9999 makes `date(year, 1, 4)`
raise, and date arithmetic leaving the `date` range (rata die 1–3652059)
raises `OverflowError` — all `none` here. -/
def calculateWeekdate? (year week day : Int) : Option (Nat × Nat × Nat) :=
  if week ≤ 0 ∨ 54 ≤ week then none
  else if day ≤ 0 ∨ 8 ≤ day then none
  else if year < 1 ∨ 9999 < year then none
  else
    let jan4 : Int := (toOrdinalDay year.toNat 1 4 : Nat)
    let week1 : Int := jan4 - ((isoWeekday (toOrdinalDay year.toNat 1 4) : Int) - 1)
    if week1 < 1 ∨ 3652059 < week1 then none
    else
      let res : Int := week1 + (week - 1) * 7 + (day - 1)
      if res < 1 ∨ 3652059 < res then none
      else some (ord2ymd res.toNat)

/-- The ordinal-day branch's `date(year, 1, 1) + timedelta(days=ordinal-1)`:
succeeds for years 1–9999 (the caller has already checked the ordinal
against the year's length, so the sum cannot leave the year). -/
def dateFromYearDay? (year ordinal : Int) : Option (Nat × Nat × Nat) :=
  if year < 1 ∨ 9999 < year then none
  else some (monthWalk year.toNat 1 (ordinal.toNat - 1) 12)

/-- dateutil `isoparser._parse_isodate_uncommon`: the ISO-week
(`YYYY-Www-D`) and ordinal-day (`YYYY-DDD`) formats, tried when the common
parse raises.  Any raise — a failed Python `int`, the inconsistent-dash
check, the week/day/ordinal range checks, `date` construction or date
arithmetic leaving year 1–9999 — propagates out of `isoparse`, hence
`none`. -/
def parseIsodateUncommon? (cs : List Char) : Option (Int × Int × Int × Nat) :=
  if cs.length < 4 then none
  else
    match pyIntOf? (cs.take 4) with
    | none => none
    | some year =>
      let hasSep : Bool := decide ((cs.drop 4).take 1 = ['-'])
      let pos := if hasSep then 5 else 4
      if (cs.drop pos).take 1 = ['W'] then
        match pyIntOf? ((cs.drop (pos + 1)).take 2) with
        | none => none
        | some weekno =>
          if pos + 3 < cs.length then
            if decide ((cs.drop (pos + 3)).take 1 = ['-']) != hasSep then none
            else
              let pos2 := if hasSep then pos + 4 else pos + 3
              match pyIntOf? ((cs.drop pos2).take 1) with
              | none => none
              | some dayno =>
                match calculateWeekdate? year weekno dayno with
                | none => none
                | some (yy, mm, dd) =>
                  some ((yy : Int), (mm : Int), (dd : Int), pos2 + 1)
          else
            match calculateWeekdate? year weekno 1 with
            | none => none
            | some (yy, mm, dd) =>
              some ((yy : Int), (mm : Int), (dd : Int), pos + 3)
      else
        if cs.length - pos < 3 then none
        else
          match pyIntOf? ((cs.drop pos).take 3) with
          | none => none
          | some ordinal =>
            if ordinal < 1 ∨ (365 + (if isLeapI year then 1 else 0) : Int) < ordinal then
              none
            else
              match dateFromYearDay? year ordinal with
              | none => none
              | some (yy, mm, dd) =>
                some ((yy : Int), (mm : Int), (dd : Int), pos + 3)

/-- dateutil `isoparser._parse_isodate`: the common parse, falling back to
the uncommon one when it raises. -/
def parseIsodate? (cs : List Char) : Option (Int × Int × Int × Nat) :=
  match parseIsodateCommon? cs with
  | some r => some r
  | none => parseIsodateUncommon? cs

/-- dateutil `isoparser._parse_tzstr` (with `zero_as_utc`): `Z`/`z` and all
zero offsets give UTC (offset 0 seconds); otherwise the length must be 3, 5
or 6, a sign and a 2-character Python-`int` hour slice and an optional
minute slice (starting after the colon when one is present) build the
offset, and the minute ≤ 59 / hour ≤ 23 bounds are only checked for nonzero
offsets. -/
def parseTzstr? (tzcs : List Char) : Option Int :=
  if tzcs = ['Z'] ∨ tzcs = ['z'] then some 0
  else if ¬(tzcs.length = 3 ∨ tzcs.length = 5 ∨ tzcs.length = 6) then none
  else
    match (if tzcs.take 1 = ['-'] then some (-1 : Int)
           else if tzcs.take 1 = ['+'] then some (1 : Int)
           else none) with
    | none => none
    | some mult =>
      match pyIntOf? ((tzcs.drop 1).take 2) with
      | none => none
      | some hours =>
        match (if tzcs.length = 3 then some (0 : Int)
               else pyIntOf?
                 (tzcs.drop (if (tzcs.drop 3).take 1 = [':'] then 4 else 3))) with
        | none => none
        | some minutes =>
          if hours = 0 ∧ minutes = 0 then some 0
          else if 59 < minutes then none
          else if 23 < hours then none
          else some (mult * (hours * 60 + minutes) * 60)

/-- State of the `_parse_isotime` scan: the position, whether a colon
separator was seen, and the five time components (hour, minute, second as
the raw `int` results, the microsecond fraction, the timezone). -/
structure IsoTimeState where
  pos : Nat
  hasSep : Bool
  h : Int
  mi : Int
  s : Int
  usec : Nat
  tzOff : Option Int
deriving DecidableEq, Repr

/-- The `while pos < len_str and comp < 5` loop of `_parse_isotime`, the
component counter `comp` running 0–5 (here `5 - fuel`): a `-`/`+`/`Z`/`z`
character hands the rest of the string to the timezone parse and ends the
scan; the minute notes an optional colon (then mandatory before the
second); components 0–2 are 2-character Python-`int` slices; component 3 is
the `[.,]digits` fraction regex match, skipped without error when it fails,
with the microseconds scaled from the first 6 fraction digits. -/
def isoTimeLoop (cs : List Char) : Nat → IsoTimeState → Option IsoTimeState
  | 0, st => some st
  | fuel + 1, st =>
    if cs.length ≤ st.pos then some st
    else
      let comp := 5 - fuel
      if (cs.drop st.pos).take 1 = ['-'] ∨ (cs.drop st.pos).take 1 = ['+'] ∨
          (cs.drop st.pos).take 1 = ['Z'] ∨ (cs.drop st.pos).take 1 = ['z'] then
        match parseTzstr? (cs.drop st.pos) with
        | none => none
        | some off => some { st with pos := cs.length, tzOff := some off }
      else
        match (if comp = 1 then
                (if (cs.drop st.pos).take 1 = [':'] then
                  some { st with pos := st.pos + 1, hasSep := true }
                 else some st)
               else if comp = 2 ∧ st.hasSep = true then
                (if (cs.drop st.pos).take 1 = [':'] then
                  some { st with pos := st.pos + 1 }
                 else none)
               else some st : Option IsoTimeState) with
        | none => none
        | some st1 =>
          if comp < 3 then
            match pyIntOf? ((cs.drop st1.pos).take 2) with
            | none => none
            | some v =>
              if comp = 0 then
                isoTimeLoop cs fuel { st1 with h := v, pos := st1.pos + 2 }
              else if comp = 1 then
                isoTimeLoop cs fuel { st1 with mi := v, pos := st1.pos + 2 }
              else isoTimeLoop cs fuel { st1 with s := v, pos := st1.pos + 2 }
          else if comp = 3 then
            let frac := (cs.drop (st1.pos + 1)).takeWhile Char.isDigit
            if ((cs.drop st1.pos).take 1 = ['.'] ∨ (cs.drop st1.pos).take 1 = [',']) ∧
                frac ≠ [] then
              isoTimeLoop cs fuel
                { st1 with
                  usec := natOfDigits (frac.take 6) * 10 ^ (6 - (frac.take 6).length)
                  pos := st1.pos + 1 + frac.length }
            else isoTimeLoop cs fuel st1
          else isoTimeLoop cs fuel st1

/-- dateutil `isoparser._parse_isotime`: at least 2 characters, the
component loop, the leftover-characters check, and the check that an hour
of 24 comes only with zero minute, second and fraction. -/
def parseIsotime? (cs : List Char) : Option IsoTimeState :=
  if cs.length < 2 then none
  else
    match isoTimeLoop cs 6 ⟨0, false, 0, 0, 0, 0, none⟩ with
    | none => none
    | some st =>
      if st.pos < cs.length then none
      else if st.h = 24 ∧ ¬(st.mi = 0 ∧ st.s = 0 ∧ st.usec = 0) then none
      else some st

/-- The Python `datetime` constructor's range validation: year 1–9999,
month 1–12, day within the month, hour 0–23, minute and second 0–59,
microsecond 0–999999; out of range raises `ValueError`. -/
def datetime? (y mo da h mi s : Int) (usec : Nat) (tzOff : Option Int) :
    Option PyDateTime :=
  if 1 ≤ y ∧ y ≤ 9999 ∧ 1 ≤ mo ∧ mo ≤ 12 ∧
      1 ≤ da ∧ da ≤ (daysInMonth y.toNat mo.toNat : Int) ∧
      0 ≤ h ∧ h ≤ 23 ∧ 0 ≤ mi ∧ mi ≤ 59 ∧ 0 ≤ s ∧ s ≤ 59 ∧ usec ≤ 999999 then
    some ⟨y.toNat, mo.toNat, da.toNat, h.toNat, mi.toNat, s.toNat, usec, tzOff⟩
  else none

/-- Python `datetime + timedelta(days=1)` as used for the 24:00 midnight
rollover: increment the day with month and year carry, keeping the time of
day and timezone; past 9999-12-31 the addition raises `OverflowError`. -/
def nextDay? (d : PyDateTime) : Option PyDateTime :=
  if d.day < daysInMonth d.year d.month then some { d with day := d.day + 1 }
  else if d.month < 12 then some { d with month := d.month + 1, day := 1 }
  else if d.year < 9999 then some { d with year := d.year + 1, month := 1, day := 1 }
  else none

/-- dateutil `isoparse` with the default separator `None` (any single
character may stand between the date and time portions), as the script
imports it.  `_takes_ascii` first rejects non-ASCII input; then the date is
parsed, and — if characters remain — the separator is skipped and the time
portion parsed; the components go through the `datetime` constructor's
validation, and an hour of 24 is rolled over to next-day midnight.  `none`
is any of the `ValueError` / `OverflowError` raises, which abort
`clean_data` through `points["point_time"].apply(isoparse)`. -/
def isoparse? (s : String) : Option PyDateTime :=
  if ¬ s.toList.all (fun c => c.toNat < 128) then none
  else
    match parseIsodate? s.toList with
    | none => none
    | some (y, mo, da, pos) =>
      if pos < s.toList.length then
        match parseIsotime? (s.toList.drop (pos + 1)) with
        | none => none
        | some t =>
          if t.h = 24 then
            match datetime? y mo da 0 t.mi t.s t.usec t.tzOff with
            | none => none
            | some d => nextDay? d
          else datetime? y mo da t.h t.mi t.s t.usec t.tzOff
      else datetime? y mo da 0 0 0 0 none

/-- The `record_identifier` dictionary of the script, integer-coded part. -/
def recordIdentifierTable : List (String × Nat) :=
  [("C", 0), ("G", 1), ("I", 2), ("L", 3), ("P", 4),
   ("R", 5), ("S", 6), ("T", 7), ("W", 8)]

/-- Keys of `record_identifier` mapped to `pd.NA`. -/
def recordIdentifierMissing : List String := [" "]

/-- The `status` dictionary of the script, integer-coded part. -/
def statusTable : List (String × Nat) :=
  [("TD", 0), ("TS", 1), ("HU", 2), ("EX", 3), ("SD", 4),
   ("SS", 5), ("LO", 6), ("WV", 7), ("DB", 8)]

/-- Keys of `status` mapped to `pd.NA`: the blank code and the four invalid
pacific-basin codes. -/
def statusMissing : List String := ["  ", "ET", "TY", "ST", "PT"]

/-- Value of a code column cell after `DataFrame.replace` with one of the two
code dictionaries: a dictionary key carrying an integer becomes that integer,
a key carrying `pd.NA` becomes missing, and any other string is left
unchanged by `replace`. -/
inductive CodedVal where
  | coded (n : Nat)
  | missing
  | raw (s : String)
deriving DecidableEq, Repr

/-- Effect of `replace` with a code dictionary on one cell. -/
def decodeWith (table : List (String × Nat)) (miss : List String)
    (s : String) : CodedVal :=
  match table.lookup s with
  | some n => .coded n
  | none => if s ∈ miss then .missing else .raw s

/-- Decoding of the `identifier` column cell. -/
def decodeIdentifier (s : String) : CodedVal :=
  decodeWith recordIdentifierTable recordIdentifierMissing s

/-- Decoding of the `status` column cell. -/
def decodeStatus (s : String) : CodedVal :=
  decodeWith statusTable statusMissing s

/-- A raw header row as appended to `file_headers`. -/
structure HeaderRec where
  eventId : String
  basin : String
  stormNum : String
  year : String
  name : String
  numPoints : Int
deriving DecidableEq, Repr

/-- A raw observation row as appended to `file_data`. -/
structure ObsRec where
  eventId : String
  year : String
  month : String
  day : String
  hoursUTC : String
  minutesUTC : String
  identifier : String
  status : String
  latitude : ℚ
  longitude : ℚ
  maxWind : Int
  minPressure : Int
  r34ne : Int
  r34se : Int
  r34sw : Int
  r34nw : Int
  r50ne : Int
  r50se : Int
  r50sw : Int
  r50nw : Int
  r64ne : Int
  r64se : Int
  r64sw : Int
  r64nw : Int
deriving DecidableEq, Repr

/-- Field extraction for a header line (`len(row_split) == 4` branch):
`event_id` verbatim, `basin` / `storm_num` / `year` sliced from it, `name`
with leading spaces stripped, and the declared point count through
`int(...)`.  A failing `int` raises in Python, hence `none`. -/
def parseHeaderFields (fields : List String) : Option HeaderRec :=
  (pyInt? (fields.getD 2 "")).map (fun n =>
    { eventId := fields.getD 0 ""
      basin := (fields.getD 0 "").take 2
      stormNum := ((fields.getD 0 "").drop 2).take 2
      year := ((fields.getD 0 "").drop 4).take 4
      name := stripSp (fields.getD 1 "")
      numPoints := n })

/-- The `int(row_split[i].lstrip(" "))` conversion the script applies to
field `i` of an observation row. -/
def pI (fields : List String) (i : Nat) : Option Int :=
  pyInt? (stripSp (fields.getD i ""))

/-- The fallible conversions of one observation row: the identifier slice
`row_split[2][-1]` (an `IndexError` on an empty field), the two coordinate
`float` conversions, and the 14 integer conversions (wind, pressure and the
twelve wind-radii fields, positions 6–19).  All must succeed. -/
structure RawObs where
  ident : String
  lat0 : ℚ
  lon0 : ℚ
  w : Int
  p : Int
  a1 : Int
  a2 : Int
  a3 : Int
  a4 : Int
  b1 : Int
  b2 : Int
  b3 : Int
  b4 : Int
  c1 : Int
  c2 : Int
  c3 : Int
  c4 : Int
deriving DecidableEq, Repr

/-- Run all fallible conversions of an observation row. -/
def parseRawObs (fields : List String) : Option RawObs :=
  match (if (fields.getD 2 "") = "" then none
         else some ((fields.getD 2 "").takeRight 1)),
        pyFloat? ((fields.getD 4 "").dropRight 1),
        pyFloat? ((fields.getD 5 "").dropRight 1),
        pI fields 6, pI fields 7, pI fields 8, pI fields 9, pI fields 10,
        pI fields 11, pI fields 12, pI fields 13, pI fields 14, pI fields 15,
        pI fields 16, pI fields 17, pI fields 18, pI fields 19 with
  | some ident, some lat0, some lon0, some w, some p, some a1, some a2, some a3,
    some a4, some b1, some b2, some b3, some b4, some c1, some c2, some c3, some c4 =>
    some ⟨ident, lat0, lon0, w, p, a1, a2, a3, a4, b1, b2, b3, b4, c1, c2, c3, c4⟩
  | _, _, _, _, _, _, _, _, _, _, _, _, _, _, _, _, _ => none

/-- Field extraction for an observation line (the non-header branch of the
loop), given the owning header's `event_id`.  A row with fewer than 20 fields
raises `IndexError` in Python; a failing `int` / `float` raises `ValueError`;
`row_split[2][-1]` on an empty field raises `IndexError`.  All of these are
`none`.  Slices mirror the script: date parts from field 0, hour = field 1
lstripped then first two characters, minute = last two characters of field 1,
identifier = last character of field 2, status = last two characters of
field 3.  The script multiplies each coordinate by `-1` or `1` according to
the trailing hemisphere letter; on exact rationals that is a conditional
negation, written here with `Rat.neg`. -/
def mkObs (eid : String) (fields : List String) (r : RawObs) : ObsRec :=
  { eventId := eid
    year := (fields.getD 0 "").take 4
    month := ((fields.getD 0 "").drop 4).take 2
    day := ((fields.getD 0 "").drop 6).take 2
    hoursUTC := (stripSp (fields.getD 1 "")).take 2
    minutesUTC := (fields.getD 1 "").takeRight 2
    identifier := r.ident
    status := (fields.getD 3 "").takeRight 2
    latitude := if (fields.getD 4 "").takeRight 1 = "S" then Rat.neg r.lat0 else r.lat0
    longitude := if (fields.getD 5 "").takeRight 1 = "W" then Rat.neg r.lon0 else r.lon0
    maxWind := r.w
    minPressure := r.p
    r34ne := r.a1, r34se := r.a2, r34sw := r.a3, r34nw := r.a4
    r50ne := r.b1, r50se := r.b2, r50sw := r.b3, r50nw := r.b4
    r64ne := r.c1, r64se := r.c2, r64sw := r.c3, r64nw := r.c4 }

def parseDataFields (eid : String) (fields : List String) : Option ObsRec :=
  if fields.length < 20 then none else
  (parseRawObs fields).map (mkObs eid fields)

/-- Failure modes of `process_file`: `noHeader` is the `IndexError` from
`file_headers[-1]` on an observation line seen before any header;
`malformed` is any other `ValueError` / `IndexError` during field
extraction. -/
inductive ExtractErr where
  | noHeader
  | malformed
deriving DecidableEq, Repr

/-- One observation line, in context: Python evaluates `file_headers[-1][0]`
first (raising if no header has been seen), then extracts the fields. -/
def parseDataRow (hs : List HeaderRec) (fields : List String) :
    Except ExtractErr ObsRec :=
  match hs.getLast? with
  | none => .error .noHeader
  | some h =>
    match parseDataFields h.eventId fields with
    | none => .error .malformed
    | some d => .ok d

/-- The extraction loop of `process_file`, carrying the two accumulators. -/
def processFileAux (hs : List HeaderRec) (ds : List ObsRec) :
    List String → Except ExtractErr (List HeaderRec × List ObsRec)
  | [] => .ok (hs, ds)
  | line :: rest =>
    if (splitComma line).length = 4 then
      match parseHeaderFields (splitComma line) with
      | none => .error .malformed
      | some h => processFileAux (hs ++ [h]) ds rest
    else
      match parseDataRow hs (splitComma line) with
      | .error e => .error e
      | .ok d => processFileAux hs (ds ++ [d]) rest

/-- `process_file`: scan the file's lines in order, classifying each line by
comma-separated field count and accumulating headers and observations. -/
def processFile (lines : List String) :
    Except ExtractErr (List HeaderRec × List ObsRec) :=
  processFileAux [] [] lines

/-- The `point_time` string assembled by `clean_data` for one observation:
`year + "-" + month + "-" + day + "T" + hours_UTC + ":" + minutes_UTC +
":00.000Z"`. -/
def pointTimeStr (o : ObsRec) : String :=
  o.year ++ "-" ++ o.month ++ "-" ++ o.day ++ "T" ++ o.hoursUTC ++ ":" ++
    o.minutesUTC ++ ":00.000Z"

/-- Failure modes of `clean_data`: `timestamp` is the `ValueError` raised by
`isoparse` on a malformed `point_time` string; `misaligned` is the pandas
length-mismatch error raised when assigning the grouped `.values` arrays to
the `events` frame. -/
inductive CleanErr where
  | timestamp
  | misaligned
deriving DecidableEq, Repr

/-- The `points["point_time"].apply(isoparse)` step: pair every observation
with its parsed timestamp, failing on the first malformed one. -/
def attachTimes : List ObsRec → Except CleanErr (List (ObsRec × PyDateTime))
  | [] => .ok []
  | o :: rest =>
    match isoparse? (pointTimeStr o) with
    | none => .error .timestamp
    | some t =>
      match attachTimes rest with
      | .error e => .error e
      | .ok l => .ok ((o, t) :: l)

/-- One space-separated token of the `path` column:
`longitude latitude max_wind min_pressure`, where a wind equal to `-99` and a
pressure equal to `-999` are rendered as the literal `NULL` (modelled as
`none`) by the two string `replace` calls. -/
structure PathToken where
  lon : ℚ
  lat : ℚ
  wind : Option Int
  pres : Option Int
deriving DecidableEq, Repr

/-- The `path` token built from one raw observation (before the sentinel
conversion of the numeric columns, which happens later in `clean_data`). -/
def pathToken (o : ObsRec) : PathToken :=
  { lon := o.longitude
    lat := o.latitude
    wind := if o.maxWind = -99 then none else some o.maxWind
    pres := if o.minPressure = -999 then none else some o.minPressure }

/-- The final `path` value of a storm row: `clean_data` wraps the joined
token string in `POINT(...)` for rows with `num_points == 1`, in
`LINESTRING(...)` for rows with `num_points > 1`, and leaves the bare joined
string on any other declared count. -/
inductive PathGeom where
  | point (toks : List PathToken)
  | line (toks : List PathToken)
  | bare (toks : List PathToken)
deriving DecidableEq, Repr

/-- Branching of `clean_data` on the declared `num_points`. -/
def wrapPath (numPoints : Int) (toks : List PathToken) : PathGeom :=
  if numPoints = 1 then .point toks
  else if 1 < numPoints then .line toks
  else .bare toks

/-- One step of pandas `groupby(..., sort=False)`: append the element to the
first group with its key, or open a new group at the end. -/
def insertGrouped {α : Type} (keyf : α → String)
    (gs : List (String × List α)) (p : α) : List (String × List α) :=
  match gs with
  | [] => [(keyf p, [p])]
  | (k, ps) :: rest =>
    if k = keyf p then (k, ps ++ [p]) :: rest
    else (k, ps) :: insertGrouped keyf rest p

/-- pandas `groupby(key, sort=False)`: groups in order of first appearance of
their key, each group holding its rows in original order. -/
def groupByKey {α : Type} (keyf : α → String) (l : List α) :
    List (String × List α) :=
  l.foldl (insertGrouped keyf) []

/-- Sentinel-to-missing conversion of one numeric cell by
`DataFrame.replace`: the sentinel becomes `pd.NA`, everything else is kept. -/
def sentinelNA (sentinel v : Int) : Option Int :=
  if v = sentinel then none else some v

/-- A normalized observation row as `clean_data` returns it (after the
column drops): decoded codes, sentinel-converted numerics, the `location`
point geometry `(longitude, latitude)` and the parsed `point_time`. -/
structure CleanPoint where
  eventId : String
  identifier : CodedVal
  status : CodedVal
  maxWind : Option Int
  minPressure : Option Int
  r34ne : Option Int
  r34se : Option Int
  r34sw : Option Int
  r34nw : Option Int
  r50ne : Option Int
  r50se : Option Int
  r50sw : Option Int
  r50nw : Option Int
  r64ne : Option Int
  r64se : Option Int
  r64sw : Option Int
  r64nw : Option Int
  location : ℚ × ℚ
  pointTime : PyDateTime
deriving DecidableEq, Repr

/-- Normalization of one observation row of the `points` frame. -/
def mkCleanPoint (x : ObsRec × PyDateTime) : CleanPoint :=
  { eventId := x.1.eventId
    identifier := decodeIdentifier x.1.identifier
    status := decodeStatus x.1.status
    maxWind := sentinelNA (-99) x.1.maxWind
    minPressure := sentinelNA (-999) x.1.minPressure
    r34ne := sentinelNA (-999) x.1.r34ne
    r34se := sentinelNA (-999) x.1.r34se
    r34sw := sentinelNA (-999) x.1.r34sw
    r34nw := sentinelNA (-999) x.1.r34nw
    r50ne := sentinelNA (-999) x.1.r50ne
    r50se := sentinelNA (-999) x.1.r50se
    r50sw := sentinelNA (-999) x.1.r50sw
    r50nw := sentinelNA (-999) x.1.r50nw
    r64ne := sentinelNA (-999) x.1.r64ne
    r64se := sentinelNA (-999) x.1.r64se
    r64sw := sentinelNA (-999) x.1.r64sw
    r64nw := sentinelNA (-999) x.1.r64nw
    location := (x.1.longitude, x.1.latitude)
    pointTime := x.2 }

/-- A normalized storm row as `clean_data` returns it (after dropping
`storm_num`, `num_points` and `year`). -/
structure CleanEvent where
  eventId : String
  basin : String
  name : String
  startTime : PyDateTime
  path : PathGeom
deriving DecidableEq, Repr

/-- The storm row assembled from its header and its group of timed
observations: `start_time` is the group's first `point_time` (pandas
`groupby.first()`; `point_time` is never null here, so this is the first
row), `path` is built from the group's tokens and wrapped according to the
declared `num_points`. -/
def mkEvent (e : HeaderRec) (g : String × List (ObsRec × PyDateTime)) :
    CleanEvent :=
  { eventId := e.eventId
    basin := e.basin
    name := e.name
    startTime := ((g.2.map Prod.snd).headD ⟨0, 0, 0, 0, 0, 0, 0, none⟩)
    path := wrapPath e.numPoints (g.2.map (fun x => pathToken x.1)) }

/-- `clean_data`: parse every `point_time` (a failure raises), group the
observations by `event_id` in first-appearance order, assign the grouped
first-timestamp and joined-path arrays positionally onto the `events` frame
(raising if the array length differs from the number of events), and
normalize every observation row. -/
def cleanData (evs : List HeaderRec) (pts : List ObsRec) :
    Except CleanErr (List CleanEvent × List CleanPoint) :=
  match attachTimes pts with
  | .error e => .error e
  | .ok tl =>
    if (groupByKey (fun x => x.1.eventId) tl).length = evs.length then
      .ok (List.zipWith mkEvent evs (groupByKey (fun x => x.1.eventId) tl),
        tl.map mkCleanPoint)
    else .error .misaligned

/-- Combined failure type of the two phases. -/
inductive PipeErr where
  | extract (e : ExtractErr)
  | clean (e : CleanErr)
deriving DecidableEq, Repr

/-- The whole pipeline on one file's lines: extraction then normalization. -/
def pipeline (lines : List String) :
    Except PipeErr (List CleanEvent × List CleanPoint) :=
  match processFile lines with
  | .error e => .error (.extract e)
  | .ok (hs, ds) =>
    match cleanData hs ds with
    | .error e => .error (.clean e)
    | .ok r => .ok r

/-- The pipeline as run at a wall-clock instant `now`: the script never reads
the clock (or any other ambient state), so the run time is simply ignored. -/
def pipelineAt (_now : Nat) (lines : List String) :
    Except PipeErr (List CleanEvent × List CleanPoint) :=
  pipeline lines

/-- Header records in source order, as the spec describes them: every line
with exactly 4 comma-separated fields, extracted in place. -/
def headersSpec (lines : List String) : List HeaderRec :=
  lines.filterMap (fun l =>
    if (splitComma l).length = 4 then parseHeaderFields (splitComma l) else none)

/-- Observation records in source order, as the spec describes the scan: a
current-header accumulator is threaded through the lines, every non-header
line is extracted against the current header's `event_id`, and the scan is
cut short at the first undecodable line (the extractor fails there, so
nothing later is emitted). -/
def obsSpec (cur : Option String) : List String → List ObsRec
  | [] => []
  | line :: rest =>
    if (splitComma line).length = 4 then
      match parseHeaderFields (splitComma line) with
      | some h => obsSpec (some h.eventId) rest
      | none => []
    else
      match cur with
      | none => []
      | some eid =>
        match parseDataFields eid (splitComma line) with
        | some d => d :: obsSpec cur rest
        | none => []

/-- Positions of the 14 integer observation fields (wind, pressure, twelve
radii). -/
def intFieldIdx : List Nat := [6, 7, 8, 9, 10, 11, 12, 13, 14, 15, 16, 17, 18, 19]

/-- An observation row with a numeric field the script cannot parse: one of
the 14 integer conversions or one of the two coordinate `float` conversions
fails. -/
def NumericBad (fields : List String) : Prop :=
  (∃ i ∈ intFieldIdx, pI fields i = none) ∨
    pyFloat? ((fields.getD 4 "").dropRight 1) = none ∨
    pyFloat? ((fields.getD 5 "").dropRight 1) = none

/-- Hemisphere letter re-derived from the sign of a stored latitude (the
sign of a rational is the sign of its numerator). -/
def latMarker (x : ℚ) : String := if x.num < 0 then "S" else "N"

/-- Hemisphere letter re-derived from the sign of a stored longitude. -/
def lonMarker (x : ℚ) : String := if x.num < 0 then "W" else "E"

/-- The claim's reading of the hour subfield: the first 2 non-space
characters of field 1. -/
def hourNonSpace (s : String) : String :=
  String.mk ((s.toList.filter (fun c => c ≠ ' ')).take 2)

/-- The `point_time` string as the claim words it, assembled directly from
the raw observation line's fields with `hourNonSpace` for the hour. -/
def pointTimeStrSpec (fields : List String) : String :=
  (fields.getD 0 "").take 4 ++ "-" ++ ((fields.getD 0 "").drop 4).take 2 ++ "-" ++
    ((fields.getD 0 "").drop 6).take 2 ++ "T" ++ hourNonSpace (fields.getD 1 "") ++
    ":" ++ (fields.getD 1 "").takeRight 2 ++ ":00.000Z"

/-- Input well-formedness for claim C10: every observation line (field count
other than 4) is preceded by at least one header line. -/
def HeaderLed (lines : List String) : Prop :=
  ∀ i, i < lines.length → (splitComma (lines.getD i "")).length ≠ 4 →
    ∃ j, j < i ∧ (splitComma (lines.getD j "")).length = 4

/-- Relation between a raw observation row and its normalized row: decoded
codes, sentinel-converted numerics, location geometry and parsed
`point_time`. -/
def cleanPointRel (o : ObsRec) (p : CleanPoint) : Prop :=
  p.eventId = o.eventId ∧
  p.identifier = decodeIdentifier o.identifier ∧
  p.status = decodeStatus o.status ∧
  p.maxWind = sentinelNA (-99) o.maxWind ∧
  p.minPressure = sentinelNA (-999) o.minPressure ∧
  p.r34ne = sentinelNA (-999) o.r34ne ∧
  p.r34se = sentinelNA (-999) o.r34se ∧
  p.r34sw = sentinelNA (-999) o.r34sw ∧
  p.r34nw = sentinelNA (-999) o.r34nw ∧
  p.r50ne = sentinelNA (-999) o.r50ne ∧
  p.r50se = sentinelNA (-999) o.r50se ∧
  p.r50sw = sentinelNA (-999) o.r50sw ∧
  p.r50nw = sentinelNA (-999) o.r50nw ∧
  p.r64ne = sentinelNA (-999) o.r64ne ∧
  p.r64se = sentinelNA (-999) o.r64se ∧
  p.r64sw = sentinelNA (-999) o.r64sw ∧
  p.r64nw = sentinelNA (-999) o.r64nw ∧
  p.location = (o.longitude, o.latitude) ∧
  isoparse? (pointTimeStr o) = some p.pointTime

/-- A well-formed HURDAT2 header line (4 comma-separated fields). -/
def exHeaderLine : String := "AL011851,            UNNAMED,      1,"

/-- A header line declaring two data points. -/
def exHeaderLine2 : String := "AL021852,             TWOPT,      2,"

/-- A well-formed HURDAT2 observation line (20 comma-separated fields). -/
def exObsLine : String :=
  "18510625, 0000,  , HU, 28.0N, 94.8W,  80, -999, -999, -999, -999, -999, -999, -999, -999, -999, -999, -999, -999, -999"

/-- An observation line whose time field `" 1 234"` has a space among its
first characters: the script's hour slice is `"1 "` while the first two
non-space characters are `"12"`. -/
def exObsLineBadTime : String :=
  "18510625, 1 234,  , HU, 28.0N, 94.8W,  80, -999, -999, -999, -999, -999, -999, -999, -999, -999, -999, -999, -999, -999"

/-- An observation line whose latitude field is `" 0.0S"`: zero magnitude
with the southern-hemisphere marker. -/
def exObsLineZeroLat : String :=
  "18510625, 0000,  , HU, 0.0S, 94.8W,  80, -999, -999, -999, -999, -999, -999, -999, -999, -999, -999, -999, -999, -999"

/-- The header record extracted from `exHeaderLine`. -/
def exHdr : HeaderRec :=
  { eventId := "AL011851", basin := "AL", stormNum := "01", year := "1851",
    name := "UNNAMED", numPoints := 1 }

/-- A header record declaring two data points. -/
def exHdr2 : HeaderRec :=
  { eventId := "AL021852", basin := "AL", stormNum := "02", year := "1852",
    name := "TWOPT", numPoints := 2 }

/-- The observation record extracted from `exObsLine`. -/
def exObs : ObsRec :=
  { eventId := "AL011851", year := "1851", month := "06", day := "25",
    hoursUTC := "00", minutesUTC := "00", identifier := " ", status := "HU",
    latitude := 28, longitude := Rat.neg (mkRat 474 5), maxWind := 80, minPressure := -999,
    r34ne := -999, r34se := -999, r34sw := -999, r34nw := -999,
    r50ne := -999, r50se := -999, r50sw := -999, r50nw := -999,
    r64ne := -999, r64se := -999, r64sw := -999, r64nw := -999 }

/-- A second observation of the same storm, six hours later, with a mixture
of valid and sentinel numeric fields and unknown raw codes. -/
def exObsB : ObsRec :=
  { exObs with
    hoursUTC := "06"
    identifier := "X"
    status := "QQ"
    latitude := 29
    maxWind := -99
    minPressure := 985
    r34ne := 120 }

/-- An observation of the second storm. -/
def exObsC : ObsRec :=
  { exObs with
    eventId := "AL021852"
    day := "26"
    status := "TS"
    maxWind := 45 }

/-- Another observation of the second storm, six hours later. -/
def exObsD : ObsRec :=
  { exObsC with
    hoursUTC := "06"
    latitude := 30 }

/-- Inversion of a successful `parseRawObs`: every fallible conversion
succeeded with the recorded value. -/
lemma parseRawObs_eq_some {fields : List String} {r : RawObs}
    (h : parseRawObs fields = some r) :
    (fields.getD 2 "") ≠ "" ∧ r.ident = (fields.getD 2 "").takeRight 1 ∧
    pyFloat? ((fields.getD 4 "").dropRight 1) = some r.lat0 ∧
    pyFloat? ((fields.getD 5 "").dropRight 1) = some r.lon0 ∧
    pI fields 6 = some r.w ∧ pI fields 7 = some r.p ∧
    pI fields 8 = some r.a1 ∧ pI fields 9 = some r.a2 ∧
    pI fields 10 = some r.a3 ∧ pI fields 11 = some r.a4 ∧
    pI fields 12 = some r.b1 ∧ pI fields 13 = some r.b2 ∧
    pI fields 14 = some r.b3 ∧ pI fields 15 = some r.b4 ∧
    pI fields 16 = some r.c1 ∧ pI fields 17 = some r.c2 ∧
    pI fields 18 = some r.c3 ∧ pI fields 19 = some r.c4 := by
  unfold parseRawObs at h
  split at h
  · rename_i ident lat0 lon0 w p a1 a2 a3 a4 b1 b2 b3 b4 c1 c2 c3 c4
      hident hlat hlon h6 h7 h8 h9 h10 h11 h12 h13 h14 h15 h16 h17 h18 h19
    simp only [Option.some.injEq] at h
    subst h
    have hid : (fields.getD 2 "") ≠ "" ∧ (fields.getD 2 "").takeRight 1 = ident := by
      split at hident
      · simp at hident
      · simp only [Option.some.injEq] at hident
        rename_i hne
        exact ⟨hne, hident⟩
    exact ⟨hid.1, hid.2.symm, hlat, hlon, h6, h7, h8, h9, h10, h11, h12, h13,
      h14, h15, h16, h17, h18, h19⟩
  · simp at h

/-- Inversion of a successful observation-field extraction: every slice and
numeric conversion the script performs, read back from the record. -/
lemma parseDataFields_eq_some {eid : String} {fields : List String}
    {d : ObsRec} (h : parseDataFields eid fields = some d) :
    20 ≤ fields.length ∧
    d.eventId = eid ∧
    d.year = (fields.getD 0 "").take 4 ∧
    d.month = ((fields.getD 0 "").drop 4).take 2 ∧
    d.day = ((fields.getD 0 "").drop 6).take 2 ∧
    d.hoursUTC = (stripSp (fields.getD 1 "")).take 2 ∧
    d.minutesUTC = (fields.getD 1 "").takeRight 2 ∧
    d.identifier = (fields.getD 2 "").takeRight 1 ∧
    d.status = (fields.getD 3 "").takeRight 2 ∧
    (∃ m, pyFloat? ((fields.getD 4 "").dropRight 1) = some m ∧
      d.latitude = (if (fields.getD 4 "").takeRight 1 = "S" then Rat.neg m else m)) ∧
    (∃ m, pyFloat? ((fields.getD 5 "").dropRight 1) = some m ∧
      d.longitude = (if (fields.getD 5 "").takeRight 1 = "W" then Rat.neg m else m)) ∧
    pI fields 6 = some d.maxWind ∧
    pI fields 7 = some d.minPressure ∧
    pI fields 8 = some d.r34ne ∧ pI fields 9 = some d.r34se ∧
    pI fields 10 = some d.r34sw ∧ pI fields 11 = some d.r34nw ∧
    pI fields 12 = some d.r50ne ∧ pI fields 13 = some d.r50se ∧
    pI fields 14 = some d.r50sw ∧ pI fields 15 = some d.r50nw ∧
    pI fields 16 = some d.r64ne ∧ pI fields 17 = some d.r64se ∧
    pI fields 18 = some d.r64sw ∧ pI fields 19 = some d.r64nw := by
  rw [parseDataFields] at h
  split at h
  · simp at h
  · rename_i hlen
    rw [Option.map_eq_some'] at h
    obtain ⟨r, hr, hd⟩ := h
    obtain ⟨hne, hident, hlat, hlon, h6, h7, h8, h9, h10, h11, h12, h13, h14,
      h15, h16, h17, h18, h19⟩ := parseRawObs_eq_some hr
    rw [← hd]
    simp only [mkObs]
    exact ⟨by omega, trivial, trivial, trivial, trivial, trivial, trivial,
      hident, trivial, ⟨r.lat0, hlat, rfl⟩, ⟨r.lon0, hlon, rfl⟩,
      h6, h7, h8, h9, h10, h11, h12, h13, h14, h15, h16, h17, h18, h19⟩

/-- An observation row with a bad numeric field or too few fields always
fails extraction, whichever header owns it. -/
lemma parseDataFields_none_of_bad (eid : String) (fields : List String)
    (hb : fields.length < 20 ∨ NumericBad fields) :
    parseDataFields eid fields = none := by
  by_contra hne
  obtain ⟨d, hd⟩ := Option.ne_none_iff_exists'.mp hne
  obtain ⟨hlen, -, -, -, -, -, -, -, -, hlat, hlon, h6, h7, h8, h9, h10, h11,
    h12, h13, h14, h15, h16, h17, h18, h19⟩ := parseDataFields_eq_some hd
  rcases hb with hlen2 | hnum
  · omega
  · rcases hnum with ⟨i, hi, hnone⟩ | hf | hf
    · simp only [intFieldIdx, List.mem_cons, List.not_mem_nil, or_false] at hi
      rcases hi with rfl | rfl | rfl | rfl | rfl | rfl | rfl | rfl | rfl | rfl |
        rfl | rfl | rfl | rfl <;> simp_all
    · obtain ⟨m, hm, -⟩ := hlat
      simp_all
    · obtain ⟨m, hm, -⟩ := hlon
      simp_all

/-- A data row in a nonempty-header context never reports `noHeader`. -/
lemma parseDataRow_ne_noHeader {hs : List HeaderRec} {fields : List String}
    (hne : hs ≠ []) : parseDataRow hs fields ≠ .error .noHeader := by
  rw [parseDataRow]
  split
  · rename_i heq
    have := List.getLast?_isSome.mpr hne
    rw [heq] at this
    simp at this
  · split <;> simp

/-- A data row whose field extraction fails reports `malformed` whenever a
header has been seen. -/
lemma parseDataRow_malformed {hs : List HeaderRec} {fields : List String}
    (hne : hs ≠ [])
    (hnone : ∀ eid, parseDataFields eid fields = none) :
    parseDataRow hs fields = .error .malformed := by
  rw [parseDataRow]
  split
  · rename_i heq
    have := List.getLast?_isSome.mpr hne
    rw [heq] at this
    simp at this
  · rename_i hh heq
    split
    · rfl
    · rename_i d hpf
      rw [hnone hh.eventId] at hpf
      simp at hpf

/-- Inversion of a successfully extracted data row. -/
lemma parseDataRow_ok {hs : List HeaderRec} {fields : List String} {d : ObsRec}
    (h : parseDataRow hs fields = .ok d) :
    ∃ hh, hs.getLast? = some hh ∧ parseDataFields hh.eventId fields = some d := by
  rw [parseDataRow] at h
  split at h
  · simp at h
  · rename_i hh heq
    split at h
    · simp at h
    · rename_i d' hpf
      simp only [Except.ok.injEq] at h
      exact ⟨hh, heq, by rw [hpf, h]⟩

/-- A data row always fails one way or the other when its field extraction
fails: a one-step error of the scan. -/
lemma processFileAux_data_error {line : String} (post : List String)
    (hne4 : (splitComma line).length ≠ 4)
    (hnone : ∀ eid, parseDataFields eid (splitComma line) = none)
    (hs : List HeaderRec) (ds : List ObsRec) :
    ∃ e, processFileAux hs ds (line :: post) = .error e := by
  rw [processFileAux, if_neg hne4]
  rcases List.eq_nil_or_concat hs with rfl | ⟨hs', hh, rfl⟩
  · refine ⟨.noHeader, ?_⟩
    rw [parseDataRow]
    rfl
  · refine ⟨.malformed, ?_⟩
    rw [parseDataRow_malformed (by simp) hnone]

/-- An error at the head of the remaining lines propagates: the whole file's
extraction fails. -/
lemma processFileAux_error_propagate {line : String} {post : List String}
    (herr : ∀ hs' ds', ∃ e, processFileAux hs' ds' (line :: post) = .error e) :
    ∀ (pre : List String) hs0 ds0,
      ∃ e, processFileAux hs0 ds0 (pre ++ line :: post) = .error e := by
  intro pre
  induction pre with
  | nil => intro hs0 ds0; exact herr hs0 ds0
  | cons x pre ih =>
    intro hs0 ds0
    rw [List.cons_append, processFileAux]
    by_cases h4 : (splitComma x).length = 4
    · rw [if_pos h4]
      cases hph : parseHeaderFields (splitComma x) with
      | none => exact ⟨.malformed, rfl⟩
      | some hh => exact ih (hs0 ++ [hh]) ds0
    · rw [if_neg h4]
      cases hrow : parseDataRow hs0 (splitComma x) with
      | error e => exact ⟨e, rfl⟩
      | ok d => exact ih hs0 (ds0 ++ [d])

/-- A successful scan emits exactly one record per line. -/
lemma processFileAux_ok_length :
    ∀ (lines : List String) hs0 ds0 hs ds,
      processFileAux hs0 ds0 lines = .ok (hs, ds) →
      hs.length + ds.length = hs0.length + ds0.length + lines.length := by
  intro lines
  induction lines with
  | nil =>
    intro hs0 ds0 hs ds h
    rw [processFileAux] at h
    simp only [Except.ok.injEq, Prod.mk.injEq] at h
    obtain ⟨rfl, rfl⟩ := h
    simp
  | cons line rest ih =>
    intro hs0 ds0 hs ds h
    rw [processFileAux] at h
    by_cases h4 : (splitComma line).length = 4
    · rw [if_pos h4] at h
      cases hph : parseHeaderFields (splitComma line) with
      | none => rw [hph] at h; simp at h
      | some hh =>
        rw [hph] at h
        have := ih _ _ _ _ h
        simp only [List.length_append, List.length_cons, List.length_nil] at this ⊢
        omega
    · rw [if_neg h4] at h
      cases hrow : parseDataRow hs0 (splitComma line) with
      | error e => rw [hrow] at h; simp at h
      | ok d =>
        rw [hrow] at h
        have := ih _ _ _ _ h
        simp only [List.length_append, List.length_cons, List.length_nil] at this ⊢
        omega

/-- A successful scan emits exactly the headers and observations described by
the spec-side scan (`headersSpec`, `obsSpec`), continuing from the
accumulators. -/
lemma processFileAux_ok_spec :
    ∀ (lines : List String) hs0 ds0 hs ds,
      processFileAux hs0 ds0 lines = .ok (hs, ds) →
      hs = hs0 ++ headersSpec lines ∧
      ds = ds0 ++ obsSpec (hs0.getLast?.map HeaderRec.eventId) lines := by
  intro lines
  induction lines with
  | nil =>
    intro hs0 ds0 hs ds h
    rw [processFileAux] at h
    simp only [Except.ok.injEq, Prod.mk.injEq] at h
    obtain ⟨rfl, rfl⟩ := h
    simp [headersSpec, obsSpec]
  | cons line rest ih =>
    intro hs0 ds0 hs ds h
    rw [processFileAux] at h
    by_cases h4 : (splitComma line).length = 4
    · rw [if_pos h4] at h
      cases hph : parseHeaderFields (splitComma line) with
      | none => rw [hph] at h; simp at h
      | some hh =>
        rw [hph] at h
        obtain ⟨ihh, ihd⟩ := ih _ _ _ _ h
        refine ⟨?_, ?_⟩
        · rw [ihh]
          simp only [headersSpec, List.filterMap_cons, if_pos h4, hph]
          rw [List.append_assoc, List.singleton_append]
        · rw [ihd]
          simp only [obsSpec, if_pos h4, hph, List.getLast?_concat,
            Option.map_some']
    · rw [if_neg h4] at h
      cases hrow : parseDataRow hs0 (splitComma line) with
      | error e => rw [hrow] at h; simp at h
      | ok d =>
        rw [hrow] at h
        obtain ⟨hh, hgl, hpf⟩ := parseDataRow_ok hrow
        obtain ⟨ihh, ihd⟩ := ih _ _ _ _ h
        refine ⟨?_, ?_⟩
        · rw [ihh]
          simp only [headersSpec, List.filterMap_cons, if_neg h4]
        · rw [ihd]
          simp only [obsSpec, if_neg h4, hgl, Option.map_some', hpf]
          rw [List.append_assoc, List.singleton_append]

/-- C3: during extraction, any observation line with fewer than 20
comma-separated fields, and any observation line with a field that fails
integer/float parsing, signals a malformed-record failure; the failure is
not recovered, so one malformed line fails the whole file's extraction, and
a successful extraction emits exactly one record per input line (no line is
ever silently skipped). -/
theorem c3_malformed_extraction :
    (∀ (hs : List HeaderRec) (fields : List String), hs ≠ [] →
      (fields.length < 20 ∨ NumericBad fields) →
      parseDataRow hs fields = .error .malformed) ∧
    (∀ (pre : List String) (line : String) (post : List String),
      (splitComma line).length ≠ 4 →
      ((splitComma line).length < 20 ∨ NumericBad (splitComma line)) →
      ∃ e, processFile (pre ++ line :: post) = .error e) ∧
    (∀ (lines : List String) (hs : List HeaderRec) (ds : List ObsRec),
      processFile lines = .ok (hs, ds) →
      hs.length + ds.length = lines.length) := by
  refine ⟨?_, ?_, ?_⟩
  · intro hs fields hne hb
    exact parseDataRow_malformed hne
      (fun eid => parseDataFields_none_of_bad eid fields hb)
  · intro pre line post h4 hb
    exact processFileAux_error_propagate
      (processFileAux_data_error post h4
        (fun eid => parseDataFields_none_of_bad eid _ hb)) pre [] []
  · intro lines hs ds h
    simpa using processFileAux_ok_length lines [] [] hs ds h

/-- Witness for C3 at concrete inputs: a one-field line is malformed at row
level, it fails a whole two-line file, and a well-formed two-line file emits
one header and one observation. -/
theorem c3_malformed_extraction_witness :
    parseDataRow [exHdr] (splitComma "bad") = .error .malformed ∧
    (∃ e, processFile [exHeaderLine, "bad"] = .error e) ∧
    ([exHdr].length + [exObs].length = 2) := by
  refine ⟨?_, ?_, ?_⟩
  · exact c3_malformed_extraction.1 [exHdr] _ (by simp) (by left; decide)
  · exact c3_malformed_extraction.2.1 [exHeaderLine] "bad" [] (by decide)
      (by left; decide)
  · exact c3_malformed_extraction.2.2 [exHeaderLine, exObsLine] [exHdr] [exObs]
      (by rfl)

/-- C8: the extraction loop classifies each line by comma-separated field
count (exactly 4 is a header, anything else an observation) and threads a
current-header state through the scan, so a successful extraction returns
exactly the headers of the 4-field lines in source order and exactly the
observations of the spec-side current-header scan, each carrying the
`event_id` of the most recently emitted header, in source order. -/
theorem c8_scan_invariant :
    ∀ (lines : List String) (hs : List HeaderRec) (ds : List ObsRec),
      processFile lines = .ok (hs, ds) →
      hs = headersSpec lines ∧ ds = obsSpec none lines := by
  intro lines hs ds h
  simpa using processFileAux_ok_spec lines [] [] hs ds h

/-- Witness for C8 at a concrete two-storm file. -/
theorem c8_scan_invariant_witness :
    [exHdr] = headersSpec [exHeaderLine, exObsLine] ∧
    [exObs] = obsSpec none [exHeaderLine, exObsLine] :=
  c8_scan_invariant [exHeaderLine, exObsLine] [exHdr] [exObs] (by rfl)

/-- C9: the pipeline is deterministic: it depends only on the input lines
and not on the wall-clock time of the run, so two runs on byte-identical
input produce identical storm and observation record sets. -/
theorem c9_deterministic :
    ∀ (t1 t2 : Nat) (lines1 lines2 : List String), lines1 = lines2 →
      pipelineAt t1 lines1 = pipelineAt t2 lines2 := by
  intro t1 t2 l1 l2 h
  rw [h]
  rfl

/-- Witness for C9 at a concrete file and two different run times. -/
theorem c9_deterministic_witness :
    pipelineAt 0 [exHeaderLine, exObsLine] = pipelineAt 1 [exHeaderLine, exObsLine] :=
  c9_deterministic 0 1 _ _ rfl

/-- The scan never reports `noHeader` once a header is in the accumulator. -/
lemma processFileAux_ne_noHeader :
    ∀ (lines : List String) (hs : List HeaderRec) (ds : List ObsRec),
      hs ≠ [] → processFileAux hs ds lines ≠ .error .noHeader := by
  intro lines
  induction lines with
  | nil =>
    intro hs ds hne
    rw [processFileAux]
    simp
  | cons line rest ih =>
    intro hs ds hne
    rw [processFileAux]
    by_cases h4 : (splitComma line).length = 4
    · rw [if_pos h4]
      cases hph : parseHeaderFields (splitComma line) with
      | none => simp
      | some hh => exact ih (hs ++ [hh]) ds (by simp)
    · rw [if_neg h4]
      cases hrow : parseDataRow hs (splitComma line) with
      | error e =>
        have hne2 := @parseDataRow_ne_noHeader hs (splitComma line) hne
        rw [hrow] at hne2
        simpa using hne2
      | ok d => exact ih hs (ds ++ [d]) hne

/-- C10: an observation line with no preceding header makes the extractor
index the last element of an empty header list, so the whole extraction
fails with the no-header error rather than emitting an unowned observation;
and when every observation line is preceded by at least one header line this
failure is unreachable. -/
theorem c10_no_unowned_observation :
    (∀ (lines : List String) (i : Nat), i < lines.length →
      (splitComma (lines.getD i "")).length ≠ 4 →
      (∀ j, j < i → (splitComma (lines.getD j "")).length ≠ 4) →
      processFile lines = .error .noHeader) ∧
    (∀ lines : List String, HeaderLed lines →
      processFile lines ≠ .error .noHeader) := by
  constructor
  · intro lines i hi hobs hpre
    have h0 : (splitComma (lines.getD 0 "")).length ≠ 4 := by
      rcases Nat.eq_zero_or_pos i with rfl | hpos
      · exact hobs
      · exact hpre 0 hpos
    cases lines with
    | nil => simp at hi
    | cons l0 rest =>
      rw [List.getD_cons_zero] at h0
      rw [processFile, processFileAux, if_neg h0]
      rfl
  · intro lines hled
    cases lines with
    | nil =>
      rw [processFile, processFileAux]
      simp
    | cons l0 rest =>
      by_cases h4 : (splitComma l0).length = 4
      · rw [processFile, processFileAux, if_pos h4]
        cases hph : parseHeaderFields (splitComma l0) with
        | none => simp
        | some hh => exact processFileAux_ne_noHeader rest ([] ++ [hh]) [] (by simp)
      · exfalso
        obtain ⟨j, hj, -⟩ := hled 0 (by simp)
          (by simp only [List.getD_cons_zero]; exact h4)
        omega

/-- Witness for C10: a headerless one-line file fails with the no-header
error, and a well-formed header-led file never does. -/
theorem c10_no_unowned_observation_witness :
    processFile ["x"] = .error .noHeader ∧
    processFile [exHeaderLine, exObsLine] ≠ .error .noHeader :=
  ⟨c10_no_unowned_observation.1 ["x"] 0 (by decide) (by decide)
      (fun j hj => absurd hj (Nat.not_lt_zero j)),
    c10_no_unowned_observation.2 [exHeaderLine, exObsLine]
      (by unfold HeaderLed; decide)⟩

/-- Inversion of a successful timestamp pass: every observation is kept, in
order, paired with its parsed `point_time`. -/
lemma attachTimes_ok :
    ∀ {pts : List ObsRec} {tl : List (ObsRec × PyDateTime)},
      attachTimes pts = .ok tl →
      tl.map Prod.fst = pts ∧
      ∀ x ∈ tl, isoparse? (pointTimeStr x.1) = some x.2 := by
  intro pts
  induction pts with
  | nil =>
    intro tl h
    rw [attachTimes] at h
    simp only [Except.ok.injEq] at h
    subst h
    simp
  | cons o rest ih =>
    intro tl h
    rw [attachTimes] at h
    split at h
    · simp at h
    · rename_i t hiso
      split at h
      · simp at h
      · rename_i l har
        simp only [Except.ok.injEq] at h
        subst h
        obtain ⟨ih1, ih2⟩ := ih har
        constructor
        · simp [ih1]
        · intro x hx
          rcases List.mem_cons.mp hx with rfl | hx'
          · exact hiso
          · exact ih2 x hx'

/-- A successful timestamp pass splits along a decomposition of the input. -/
lemma attachTimes_append :
    ∀ {a b : List ObsRec} {tl : List (ObsRec × PyDateTime)},
      attachTimes (a ++ b) = .ok tl →
      ∃ ta tb, attachTimes a = .ok ta ∧ attachTimes b = .ok tb ∧ tl = ta ++ tb := by
  intro a
  induction a with
  | nil =>
    intro b tl h
    exact ⟨[], tl, rfl, by simpa using h, by simp⟩
  | cons o rest ih =>
    intro b tl h
    rw [List.cons_append, attachTimes] at h
    split at h
    · simp at h
    · rename_i t hiso
      split at h
      · simp at h
      · rename_i l har
        simp only [Except.ok.injEq] at h
        subst h
        obtain ⟨ta, tb, h1, h2, rfl⟩ := ih har
        refine ⟨(o, t) :: ta, tb, ?_, h2, by simp⟩
        rw [attachTimes, hiso, h1]

/-- One unparsable `point_time` fails the whole timestamp pass. -/
lemma attachTimes_error {pts : List ObsRec} {o : ObsRec} (ho : o ∈ pts)
    (hbad : isoparse? (pointTimeStr o) = none) :
    attachTimes pts = .error .timestamp := by
  induction pts with
  | nil => simp at ho
  | cons p rest ih =>
    rw [attachTimes]
    rcases List.mem_cons.mp ho with rfl | ho'
    · rw [hbad]
    · cases hiso : isoparse? (pointTimeStr p) with
      | none => rfl
      | some t => rw [ih ho']

/-- Inversion of a successful `cleanData` run. -/
lemma cleanData_ok {evs : List HeaderRec} {pts : List ObsRec}
    {es : List CleanEvent} {ps : List CleanPoint}
    (h : cleanData evs pts = .ok (es, ps)) :
    ∃ tl, attachTimes pts = .ok tl ∧
      ps = tl.map mkCleanPoint ∧
      es = List.zipWith mkEvent evs (groupByKey (fun x => x.1.eventId) tl) ∧
      (groupByKey (fun x => x.1.eventId) tl).length = evs.length := by
  rw [cleanData] at h
  split at h
  · simp at h
  · rename_i tl har
    split at h
    · rename_i hlen
      simp only [Except.ok.injEq, Prod.mk.injEq] at h
      obtain ⟨h1, h2⟩ := h
      exact ⟨tl, har, h2.symm, h1.symm, hlen⟩
    · simp at h

/-- The normalization of a timestamped row satisfies `cleanPointRel`. -/
lemma mkCleanPoint_rel (x : ObsRec × PyDateTime)
    (hx : isoparse? (pointTimeStr x.1) = some x.2) :
    cleanPointRel x.1 (mkCleanPoint x) := by
  rw [cleanPointRel]
  simp only [mkCleanPoint]
  exact ⟨trivial, trivial, trivial, trivial, trivial, trivial, trivial,
    trivial, trivial, trivial, trivial, trivial, trivial, trivial, trivial,
    trivial, trivial, trivial, hx⟩

/-- `cleanPointRel` pointwise over a successfully timestamped list. -/
lemma mkCleanPoint_forall₂ :
    ∀ tl : List (ObsRec × PyDateTime),
      (∀ x ∈ tl, isoparse? (pointTimeStr x.1) = some x.2) →
      List.Forall₂ cleanPointRel (tl.map Prod.fst) (tl.map mkCleanPoint) := by
  intro tl
  induction tl with
  | nil => intro h2; simp
  | cons x rest ih =>
    intro h2
    simp only [List.map_cons, List.forall₂_cons]
    exact ⟨mkCleanPoint_rel x (h2 x (List.mem_cons_self x rest)),
      ih (fun y hy => h2 y (List.mem_cons_of_mem x hy))⟩

/-- Pointwise description of the normalized observation rows: every raw
observation is decoded, sentinel-converted and timestamped in place, in
order. -/
lemma cleanData_points {evs : List HeaderRec} {pts : List ObsRec}
    {es : List CleanEvent} {ps : List CleanPoint}
    (h : cleanData evs pts = .ok (es, ps)) :
    List.Forall₂ cleanPointRel pts ps := by
  obtain ⟨tl, har, rfl, -, -⟩ := cleanData_ok h
  obtain ⟨h1, h2⟩ := attachTimes_ok har
  rw [← h1]
  exact mkCleanPoint_forall₂ tl h2

/-- C1 as the code has it (amended): decoding the raw identifier and status
codes is a lookup in the fixed tables — a table key maps to its integer
code, a documented missing-sentinel key maps to the explicit missing value,
and a code outside the table's keys is passed through unchanged by
`DataFrame.replace` (no error is signalled); `clean_data` applies exactly
this decoding to every observation. -/
theorem c1_code_decoding_amended :
    (∀ s n, recordIdentifierTable.lookup s = some n →
      decodeIdentifier s = .coded n) ∧
    (∀ s, s ∈ recordIdentifierMissing → decodeIdentifier s = .missing) ∧
    (∀ s, recordIdentifierTable.lookup s = none →
      s ∉ recordIdentifierMissing → decodeIdentifier s = .raw s) ∧
    (∀ s n, statusTable.lookup s = some n → decodeStatus s = .coded n) ∧
    (∀ s, s ∈ statusMissing → decodeStatus s = .missing) ∧
    (∀ s, statusTable.lookup s = none → s ∉ statusMissing →
      decodeStatus s = .raw s) ∧
    (∀ (evs : List HeaderRec) (pts : List ObsRec) es ps,
      cleanData evs pts = .ok (es, ps) →
      List.Forall₂ (fun (o : ObsRec) (p : CleanPoint) =>
        p.identifier = decodeIdentifier o.identifier ∧
        p.status = decodeStatus o.status) pts ps) := by
  refine ⟨?_, ?_, ?_, ?_, ?_, ?_, ?_⟩
  · intro s n h
    rw [decodeIdentifier, decodeWith, h]
  · intro s hs
    simp only [recordIdentifierMissing, List.mem_singleton] at hs
    subst hs
    decide
  · intro s h1 h2
    rw [decodeIdentifier, decodeWith, h1, if_neg h2]
  · intro s n h
    rw [decodeStatus, decodeWith, h]
  · intro s hs
    simp only [statusMissing, List.mem_cons, List.not_mem_nil, or_false] at hs
    rcases hs with rfl | rfl | rfl | rfl | rfl <;> decide
  · intro s h1 h2
    rw [decodeStatus, decodeWith, h1, if_neg h2]
  · intro evs pts es ps h
    refine (cleanData_points h).imp ?_
    intro o p hop
    rw [cleanPointRel] at hop
    exact ⟨hop.2.1, hop.2.2.1⟩

/-- Counterexample to C1 as stated: an observation whose raw identifier code
is `X` and raw status code is `QQ` (outside the tables and not documented
missing sentinels) does not make normalization fail — `clean_data` succeeds
and passes both codes through unchanged. -/
theorem c1_code_decoding_counterexample :
    ∃ es ps, cleanData [exHdr] [exObsB] = .ok (es, ps) ∧
      ps.map (fun p => p.identifier) = [CodedVal.raw "X"] ∧
      ps.map (fun p => p.status) = [CodedVal.raw "QQ"] :=
  ⟨_, _, rfl, rfl, rfl⟩

/-- Witness for the amended C1 at concrete inputs: a coded key, the missing
sentinel, a passthrough code, and a full `clean_data` run. -/
theorem c1_code_decoding_witness :
    decodeIdentifier "L" = .coded 3 ∧
    decodeIdentifier " " = .missing ∧
    decodeIdentifier "X" = .raw "X" ∧
    decodeStatus "HU" = .coded 2 ∧
    decodeStatus "ET" = .missing ∧
    decodeStatus "QQ" = .raw "QQ" ∧
    (∃ es ps, cleanData [exHdr] [exObs] = .ok (es, ps) ∧
      List.Forall₂ (fun (o : ObsRec) (p : CleanPoint) =>
        p.identifier = decodeIdentifier o.identifier ∧
        p.status = decodeStatus o.status) [exObs] ps) := by
  refine ⟨c1_code_decoding_amended.1 "L" 3 (by decide),
    c1_code_decoding_amended.2.1 " " (by decide),
    c1_code_decoding_amended.2.2.1 "X" (by decide) (by decide),
    c1_code_decoding_amended.2.2.2.1 "HU" 2 (by decide),
    c1_code_decoding_amended.2.2.2.2.1 "ET" (by decide),
    c1_code_decoding_amended.2.2.2.2.2.1 "QQ" (by decide) (by decide),
    _, _, rfl, c1_code_decoding_amended.2.2.2.2.2.2 [exHdr] [exObs] _ _ rfl⟩

/-- C4: normalization converts a `max_wind_knots` of `-99` to missing and a
`min_pressure_mb` or wind-radii value of `-999` to missing (never to a
numeric zero), independently per field, and passes every non-sentinel value
through unchanged. -/
theorem c4_sentinel_conversion :
    ∀ (evs : List HeaderRec) (pts : List ObsRec) es ps,
      cleanData evs pts = .ok (es, ps) →
      List.Forall₂ (fun (o : ObsRec) (p : CleanPoint) =>
        p.maxWind = (if o.maxWind = -99 then none else some o.maxWind) ∧
        p.minPressure = (if o.minPressure = -999 then none else some o.minPressure) ∧
        p.r34ne = (if o.r34ne = -999 then none else some o.r34ne) ∧
        p.r34se = (if o.r34se = -999 then none else some o.r34se) ∧
        p.r34sw = (if o.r34sw = -999 then none else some o.r34sw) ∧
        p.r34nw = (if o.r34nw = -999 then none else some o.r34nw) ∧
        p.r50ne = (if o.r50ne = -999 then none else some o.r50ne) ∧
        p.r50se = (if o.r50se = -999 then none else some o.r50se) ∧
        p.r50sw = (if o.r50sw = -999 then none else some o.r50sw) ∧
        p.r50nw = (if o.r50nw = -999 then none else some o.r50nw) ∧
        p.r64ne = (if o.r64ne = -999 then none else some o.r64ne) ∧
        p.r64se = (if o.r64se = -999 then none else some o.r64se) ∧
        p.r64sw = (if o.r64sw = -999 then none else some o.r64sw) ∧
        p.r64nw = (if o.r64nw = -999 then none else some o.r64nw)) pts ps := by
  intro evs pts es ps h
  refine (cleanData_points h).imp ?_
  intro o p hop
  rw [cleanPointRel] at hop
  obtain ⟨-, -, -, h4, h5, h6, h7, h8, h9, h10, h11, h12, h13, h14, h15, h16,
    h17, -, -⟩ := hop
  simp only [sentinelNA] at h4 h5 h6 h7 h8 h9 h10 h11 h12 h13 h14 h15 h16 h17
  exact ⟨h4, h5, h6, h7, h8, h9, h10, h11, h12, h13, h14, h15, h16, h17⟩

/-- Witness for C4: a run with a mixture in one storm — a valid wind `80`
with sentinel pressure `-999` in one observation, a sentinel wind `-99` with
valid pressure `985` and a valid radii `120` in the next. -/
theorem c4_sentinel_conversion_witness :
    ∃ es ps, cleanData [exHdr] [exObs, exObsB] = .ok (es, ps) ∧
      List.Forall₂ (fun (o : ObsRec) (p : CleanPoint) =>
        p.maxWind = (if o.maxWind = -99 then none else some o.maxWind) ∧
        p.minPressure = (if o.minPressure = -999 then none else some o.minPressure) ∧
        p.r34ne = (if o.r34ne = -999 then none else some o.r34ne) ∧
        p.r34se = (if o.r34se = -999 then none else some o.r34se) ∧
        p.r34sw = (if o.r34sw = -999 then none else some o.r34sw) ∧
        p.r34nw = (if o.r34nw = -999 then none else some o.r34nw) ∧
        p.r50ne = (if o.r50ne = -999 then none else some o.r50ne) ∧
        p.r50se = (if o.r50se = -999 then none else some o.r50se) ∧
        p.r50sw = (if o.r50sw = -999 then none else some o.r50sw) ∧
        p.r50nw = (if o.r50nw = -999 then none else some o.r50nw) ∧
        p.r64ne = (if o.r64ne = -999 then none else some o.r64ne) ∧
        p.r64se = (if o.r64se = -999 then none else some o.r64se) ∧
        p.r64sw = (if o.r64sw = -999 then none else some o.r64sw) ∧
        p.r64nw = (if o.r64nw = -999 then none else some o.r64nw))
        [exObs, exObsB] ps :=
  ⟨_, _, rfl, c4_sentinel_conversion [exHdr] [exObs, exObsB] _ _ rfl⟩

/-- C5 as the code has it (amended): `point_time` is the value obtained by
slicing year (characters 1–4), month (5–6) and day (7–8) from field 0, hour
as the first 2 characters of field 1 after stripping leading spaces (not the
first 2 non-space characters), minute as the last 2 characters of field 1,
concatenating `year-month-dayThour:minute:00.000Z` and parsing the string
with dateutil's `isoparse` — which is more lenient than strict ISO-8601
(Python's `int` strips whitespace inside the 2-character slices, and 24:00
rolls to next-day midnight); a string `isoparse` rejects signals the
timestamp failure, aborting normalization. -/
theorem c5_point_time_amended :
    (∀ eid fields o, parseDataFields eid fields = some o →
      pointTimeStr o =
        (fields.getD 0 "").take 4 ++ "-" ++ ((fields.getD 0 "").drop 4).take 2 ++
        "-" ++ ((fields.getD 0 "").drop 6).take 2 ++ "T" ++
        (stripSp (fields.getD 1 "")).take 2 ++ ":" ++
        (fields.getD 1 "").takeRight 2 ++ ":00.000Z") ∧
    (∀ (evs : List HeaderRec) (pts : List ObsRec) es ps,
      cleanData evs pts = .ok (es, ps) →
      List.Forall₂ (fun (o : ObsRec) (p : CleanPoint) =>
        isoparse? (pointTimeStr o) = some p.pointTime) pts ps) ∧
    (∀ (evs : List HeaderRec) (pts : List ObsRec) (o : ObsRec), o ∈ pts →
      isoparse? (pointTimeStr o) = none →
      cleanData evs pts = .error .timestamp) := by
  refine ⟨?_, ?_, ?_⟩
  · intro eid fields o h
    obtain ⟨-, -, hy, hmo, hd, hh, hmi, -, -, -, -, -⟩ := parseDataFields_eq_some h
    rw [pointTimeStr, hy, hmo, hd, hh, hmi]
  · intro evs pts es ps h
    refine (cleanData_points h).imp ?_
    intro o p hop
    rw [cleanPointRel] at hop
    exact hop.2.2.2.2.2.2.2.2.2.2.2.2.2.2.2.2.2.2
  · intro evs pts o ho hbad
    rw [cleanData, attachTimes_error ho hbad]

/-- Counterexample to C5 as stated: on an observation whose time field is
`" 1 234"`, the script's hour subfield is `"1 "` (lstrip, then slice), which
`isoparse` still accepts — Python's `int` strips the space inside the
2-character hour slice, giving hour 1 — so `clean_data` succeeds and stores
the instant `1851-06-25 01:34Z`, while the claim's formula (hour = first 2
non-space characters, `"12"`) denotes the different instant
`1851-06-25 12:34Z`; no error is signalled. -/
theorem c5_point_time_counterexample :
    ∃ o, parseDataFields "AL011851" (splitComma exObsLineBadTime) = some o ∧
      o.hoursUTC = "1 " ∧
      hourNonSpace ((splitComma exObsLineBadTime).getD 1 "") = "12" ∧
      isoparse? (pointTimeStr o) = some ⟨1851, 6, 25, 1, 34, 0, 0, some 0⟩ ∧
      isoparse? (pointTimeStrSpec (splitComma exObsLineBadTime)) =
        some ⟨1851, 6, 25, 12, 34, 0, 0, some 0⟩ ∧
      ∃ es ps, cleanData [exHdr] [o] = .ok (es, ps) ∧
        ps.map (fun p => p.pointTime) = [⟨1851, 6, 25, 1, 34, 0, 0, some 0⟩] := by
  exact ⟨_, rfl, rfl, rfl, rfl, rfl, _, _, rfl, rfl⟩

/-- Witness for the amended C5: the template equation on a concrete parsed
row, a successful run carrying the parsed instant, and the timestamp
failure on the malformed row. -/
theorem c5_point_time_witness :
    pointTimeStr exObs =
      ((splitComma exObsLine).getD 0 "").take 4 ++ "-" ++
      (((splitComma exObsLine).getD 0 "").drop 4).take 2 ++ "-" ++
      (((splitComma exObsLine).getD 0 "").drop 6).take 2 ++ "T" ++
      (stripSp ((splitComma exObsLine).getD 1 "")).take 2 ++ ":" ++
      ((splitComma exObsLine).getD 1 "").takeRight 2 ++ ":00.000Z" ∧
    (∃ es ps, cleanData [exHdr] [exObs] = .ok (es, ps) ∧
      List.Forall₂ (fun (o : ObsRec) (p : CleanPoint) =>
        isoparse? (pointTimeStr o) = some p.pointTime) [exObs] ps) ∧
    cleanData [exHdr] [{ exObs with year := "185x" }] = .error .timestamp :=
  ⟨c5_point_time_amended.1 "AL011851" (splitComma exObsLine) exObs rfl,
    ⟨_, _, rfl, c5_point_time_amended.2.1 [exHdr] [exObs] _ _ rfl⟩,
    c5_point_time_amended.2.2 [exHdr] _ { exObs with year := "185x" }
      (List.mem_singleton.mpr rfl) rfl⟩

/-- C6 as the code has it (amended): the extracted latitude is the decimal
value of all but the last character of field 4, negated exactly when the
last character is the southern marker `S` (same for longitude with the
western marker `W`); and re-deriving the marker from the sign of the stored
coordinate reproduces the original hemisphere letter whenever the magnitude
is nonzero and the trailing character is a hemisphere letter (`N`/`S` for
latitude, `E`/`W` for longitude) — a zero coordinate loses the marker. -/
theorem c6_hemisphere_sign_amended :
    ∀ eid fields d, parseDataFields eid fields = some d →
      (∃ m, pyFloat? ((fields.getD 4 "").dropRight 1) = some m ∧
        d.latitude = (if (fields.getD 4 "").takeRight 1 = "S" then Rat.neg m else m) ∧
        (0 < m.num →
          ((fields.getD 4 "").takeRight 1 = "N" ∨ (fields.getD 4 "").takeRight 1 = "S") →
          latMarker d.latitude = (fields.getD 4 "").takeRight 1)) ∧
      (∃ m, pyFloat? ((fields.getD 5 "").dropRight 1) = some m ∧
        d.longitude = (if (fields.getD 5 "").takeRight 1 = "W" then Rat.neg m else m) ∧
        (0 < m.num →
          ((fields.getD 5 "").takeRight 1 = "E" ∨ (fields.getD 5 "").takeRight 1 = "W") →
          lonMarker d.longitude = (fields.getD 5 "").takeRight 1)) := by
  intro eid fields d h
  obtain ⟨-, -, -, -, -, -, -, -, -, ⟨m1, hm1, he1⟩, ⟨m2, hm2, he2⟩, -⟩ :=
    parseDataFields_eq_some h
  constructor
  · refine ⟨m1, hm1, he1, ?_⟩
    intro hpos hmk
    rcases hmk with hN | hS
    · rw [he1, hN, if_neg (by decide), latMarker, if_neg (by omega)]
    · rw [he1, hS, if_pos rfl, latMarker]
      have hnum : (Rat.neg m1).num = -m1.num := rfl
      rw [hnum, if_pos (by omega)]
  · refine ⟨m2, hm2, he2, ?_⟩
    intro hpos hmk
    rcases hmk with hE | hW
    · rw [he2, hE, if_neg (by decide), lonMarker, if_neg (by omega)]
    · rw [he2, hW, if_pos rfl, lonMarker]
      have hnum : (Rat.neg m2).num = -m2.num := rfl
      rw [hnum, if_pos (by omega)]

/-- Counterexample to C6 as stated: the observation line with latitude field
`" 0.0S"` extracts successfully, but the stored latitude is `0`, whose
sign-derived marker is `N`, not the original `S` — the round trip fails at
zero magnitude. -/
theorem c6_hemisphere_sign_counterexample :
    ∃ d, parseDataFields "AL011851" (splitComma exObsLineZeroLat) = some d ∧
      ((splitComma exObsLineZeroLat).getD 4 "").takeRight 1 = "S" ∧
      d.latitude = 0 ∧
      latMarker d.latitude = "N" :=
  ⟨_, rfl, rfl, rfl, rfl⟩

/-- Witness for the amended C6 on the concrete row `28.0N` / `94.8W`. -/
theorem c6_hemisphere_sign_witness :
    ∃ d, parseDataFields "AL011851" (splitComma exObsLine) = some d ∧
      latMarker d.latitude = "N" ∧ lonMarker d.longitude = "W" := by
  obtain ⟨⟨m1, hm1, -, hrt1⟩, ⟨m2, hm2, -, hrt2⟩⟩ :=
    c6_hemisphere_sign_amended "AL011851" (splitComma exObsLine) exObs rfl
  have e1 : some m1 = some (mkRat 280 10) := by rw [← hm1]; rfl
  have e2 : some m2 = some (mkRat 948 10) := by rw [← hm2]; rfl
  simp only [Option.some.injEq] at e1 e2
  subst e1 e2
  exact ⟨exObs, rfl, hrt1 (by decide) (Or.inl rfl), hrt2 (by decide) (Or.inr rfl)⟩

/-- Skipping a group whose key differs from the inserted element's key. -/
lemma insertGrouped_ne {α : Type} (keyf : α → String) (k : String)
    (b : List α) (gs : List (String × List α)) (p : α) (h : k ≠ keyf p) :
    insertGrouped keyf ((k, b) :: gs) p = (k, b) :: insertGrouped keyf gs p := by
  simp only [insertGrouped]
  rw [if_neg h]

/-- A fold of insertions whose keys all differ from the head group's key
leaves the head group untouched. -/
lemma foldl_insert_skip {α : Type} (keyf : α → String) (k : String) :
    ∀ (l : List α) (b : List α) (gs : List (String × List α)),
      (∀ p ∈ l, keyf p ≠ k) →
      l.foldl (insertGrouped keyf) ((k, b) :: gs) =
        (k, b) :: l.foldl (insertGrouped keyf) gs := by
  intro l
  induction l with
  | nil => intro b gs h; simp
  | cons p rest ih =>
    intro b gs h
    rw [List.foldl_cons, List.foldl_cons,
      insertGrouped_ne keyf k b gs p (fun he => h p (List.mem_cons_self p rest) he.symm)]
    exact ih _ _ (fun q hq => h q (List.mem_cons_of_mem p hq))

/-- A fold of insertions whose keys all equal the head group's key extends
the head group in order. -/
lemma foldl_insert_extend {α : Type} (keyf : α → String) (k : String) :
    ∀ (b2 : List α) (acc : List α) (gs : List (String × List α)),
      (∀ p ∈ b2, keyf p = k) →
      b2.foldl (insertGrouped keyf) ((k, acc) :: gs) = (k, acc ++ b2) :: gs := by
  intro b2
  induction b2 with
  | nil => intro acc gs h; simp
  | cons p rest ih =>
    intro acc gs h
    rw [List.foldl_cons]
    have hstep : insertGrouped keyf ((k, acc) :: gs) p = (k, acc ++ [p]) :: gs := by
      simp only [insertGrouped]
      rw [if_pos (h p (List.mem_cons_self p rest)).symm]
    rw [hstep, ih (acc ++ [p]) gs (fun q hq => h q (List.mem_cons_of_mem p hq))]
    simp

/-- Right-to-left membership transfer along a `Forall₂`. -/
lemma forall₂_mem_right {α β : Type} {R : α → β → Prop} :
    ∀ {l : List α} {m : List β}, List.Forall₂ R l m →
      ∀ b ∈ m, ∃ a ∈ l, R a b := by
  intro l m h
  induction h with
  | nil => intro b hb; simp at hb
  | cons hR hrest ih =>
    intro b hb
    rcases List.mem_cons.mp hb with rfl | hb'
    · exact ⟨_, List.mem_cons_self .., hR⟩
    · obtain ⟨a, ha, hab⟩ := ih b hb'
      exact ⟨a, List.mem_cons_of_mem _ ha, hab⟩

/-- Composition of two `Forall₂`s through their middle list. -/
lemma forall₂_comp {α β γ : Type} {R : α → β → Prop} {S : β → γ → Prop}
    {T : α → γ → Prop} (hT : ∀ a b c, R a b → S b c → T a c) :
    ∀ {l : List α} {m : List β} {n : List γ},
      List.Forall₂ R l m → List.Forall₂ S m n → List.Forall₂ T l n := by
  intro l m n h1
  induction h1 generalizing n with
  | nil => intro h2; cases h2; exact .nil
  | cons hR hrest ih =>
    intro h2
    cases h2 with
    | cons hS h2' => exact .cons (hT _ _ _ hR hS) (ih h2')

/-- pandas `groupby(sort=False)` on a concatenation of nonempty
constant-key blocks with pairwise-distinct keys yields exactly those blocks,
keyed, in order. -/
lemma groupByKey_blocks {α : Type} (keyf : α → String) :
    ∀ {ks : List String} {blocks : List (List α)},
      List.Forall₂ (fun k b => b ≠ [] ∧ ∀ x ∈ b, keyf x = k) ks blocks →
      ks.Nodup →
      groupByKey keyf blocks.flatten =
        List.zipWith (fun k b => (k, b)) ks blocks := by
  intro ks blocks hf
  induction hf with
  | nil => intro _; simp [groupByKey]
  | cons hkb hrest ih =>
    rename_i k b ks' blocks'
    intro hnd
    obtain ⟨hk_notmem, hnd'⟩ := List.nodup_cons.mp hnd
    obtain ⟨hbne, hball⟩ := hkb
    cases b with
    | nil => exact absurd rfl hbne
    | cons p b' =>
      rw [List.flatten_cons, groupByKey, List.foldl_append]
      have h1 : List.foldl (insertGrouped keyf) [] (p :: b') = [(k, p :: b')] := by
        rw [List.foldl_cons]
        have hp : insertGrouped keyf [] p = [(keyf p, [p])] := rfl
        rw [hp, hball p (List.mem_cons_self p b'),
          foldl_insert_extend keyf k b' [p] []
            (fun q hq => hball q (List.mem_cons_of_mem p hq))]
        simp
      rw [h1]
      have h2 : ∀ q ∈ blocks'.flatten, keyf q ≠ k := by
        intro q hq he
        obtain ⟨bq, hbq, hqb⟩ := List.mem_flatten.mp hq
        obtain ⟨k', hk', hR⟩ := forall₂_mem_right hrest bq hbq
        rw [hR.2 q hqb] at he
        subst he
        exact hk_notmem hk'
      rw [foldl_insert_skip keyf k blocks'.flatten (p :: b') [] h2]
      have h3 : List.foldl (insertGrouped keyf) [] blocks'.flatten =
          groupByKey keyf blocks'.flatten := rfl
      rw [h3, ih hnd', List.zipWith_cons_cons]

/-- Aligning the `zipWith` of storm assembly with the grouped blocks. -/
lemma zipWith_mkEvent_zip :
    ∀ (evs : List HeaderRec) (bts : List (List (ObsRec × PyDateTime))),
      List.zipWith mkEvent evs
        (List.zipWith (fun k b => (k, b)) (evs.map (fun e => e.eventId)) bts) =
      List.zipWith (fun e bt => mkEvent e (e.eventId, bt)) evs bts := by
  intro evs
  induction evs with
  | nil => intro bts; simp
  | cons e evs' ih =>
    intro bts
    cases bts with
    | nil => simp
    | cons bt bts' =>
      simp only [List.map_cons, List.zipWith_cons_cons]
      rw [ih]

/-- A successful timestamp pass over a concatenation of blocks decomposes
into successful passes over the blocks. -/
lemma attachTimes_flatten :
    ∀ {blocks : List (List ObsRec)} {tl : List (ObsRec × PyDateTime)},
      attachTimes blocks.flatten = .ok tl →
      ∃ bts, tl = bts.flatten ∧
        List.Forall₂ (fun b bt => attachTimes b = .ok bt) blocks bts := by
  intro blocks
  induction blocks with
  | nil =>
    intro tl h
    simp only [List.flatten_nil] at h
    rw [attachTimes] at h
    simp only [Except.ok.injEq] at h
    subst h
    exact ⟨[], by simp, .nil⟩
  | cons b blocks' ih =>
    intro tl h
    rw [List.flatten_cons] at h
    obtain ⟨ta, tb, h1, h2, rfl⟩ := attachTimes_append h
    obtain ⟨bts, rfl, hf⟩ := ih h2
    exact ⟨ta :: bts, by rw [List.flatten_cons], List.Forall₂.cons h1 hf⟩

/-- Master alignment lemma: on a well-grouped input (one nonempty block of
observations per storm, in storm order, with pairwise-distinct storm ids) a
successful `clean_data` run assembles each storm row from exactly its own
timestamped block. -/
lemma cleanData_grouped {evs : List HeaderRec} {blocks : List (List ObsRec)}
    {es : List CleanEvent} {ps : List CleanPoint}
    (hf : List.Forall₂ (fun e b => b ≠ [] ∧ ∀ o ∈ b, o.eventId = e.eventId)
      evs blocks)
    (hnd : (evs.map (fun e => e.eventId)).Nodup)
    (h : cleanData evs blocks.flatten = .ok (es, ps)) :
    ∃ bts, List.Forall₂ (fun b bt => bt.map Prod.fst = b ∧
        ∀ x ∈ bt, isoparse? (pointTimeStr x.1) = some x.2) blocks bts ∧
      es = List.zipWith (fun e bt => mkEvent e (e.eventId, bt)) evs bts := by
  obtain ⟨tl, har, hps, hes, hlen⟩ := cleanData_ok h
  obtain ⟨bts, rfl, hf2⟩ := attachTimes_flatten har
  have hf3 : List.Forall₂ (fun b bt => bt.map Prod.fst = b ∧
      ∀ x ∈ bt, isoparse? (pointTimeStr x.1) = some x.2) blocks bts := by
    refine hf2.imp ?_
    intro b bt hab
    exact attachTimes_ok hab
  have hkey : List.Forall₂ (fun k bt => bt ≠ [] ∧ ∀ x ∈ bt, x.1.eventId = k)
      (evs.map (fun e => e.eventId)) bts := by
    rw [List.forall₂_map_left_iff]
    refine forall₂_comp ?_ hf hf3
    intro e b bt hR hS
    constructor
    · intro hbt
      subst hbt
      simp only [List.map_nil] at hS
      exact hR.1 hS.1.symm
    · intro x hx
      have hx1 : x.1 ∈ b := by
        rw [← hS.1]
        exact List.mem_map_of_mem Prod.fst hx
      exact hR.2 x.1 hx1
  have hgroups : groupByKey (fun x => x.1.eventId) bts.flatten =
      List.zipWith (fun k b => (k, b)) (evs.map (fun e => e.eventId)) bts :=
    groupByKey_blocks _ hkey hnd
  rw [hgroups, zipWith_mkEvent_zip] at hes
  exact ⟨bts, hf3, hes⟩

/-- C7: for every storm of a well-grouped input (its observations in one
contiguous nonempty block, storm ids pairwise distinct), the normalized
storm row's `start_time` is the parsed `point_time` of that storm's first
observation in original source order (the rows are not re-sorted). -/
theorem c7_start_time :
    ∀ (evs : List HeaderRec) (blocks : List (List ObsRec))
      (es : List CleanEvent) (ps : List CleanPoint),
      List.Forall₂ (fun e b => b ≠ [] ∧ ∀ o ∈ b, o.eventId = e.eventId)
        evs blocks →
      (evs.map (fun e => e.eventId)).Nodup →
      cleanData evs blocks.flatten = .ok (es, ps) →
      List.Forall₂ (fun (eb : HeaderRec × List ObsRec) (ce : CleanEvent) =>
        ce.eventId = eb.1.eventId ∧
        ∀ o, eb.2.head? = some o →
          isoparse? (pointTimeStr o) = some ce.startTime)
        (evs.zip blocks) es := by
  intro evs blocks es ps hf hnd h
  obtain ⟨bts, hf3, rfl⟩ := cleanData_grouped hf hnd h
  clear h hnd
  induction hf generalizing bts with
  | nil =>
    cases hf3
    simp
  | cons hR hrest ih =>
    rename_i e b evs' blocks'
    cases hf3 with
    | cons hS hf3' =>
      rename_i bt bts'
      simp only [List.zip_cons_cons, List.zipWith_cons_cons, List.forall₂_cons]
      refine ⟨⟨rfl, ?_⟩, ih bts' hf3'⟩
      intro o hhead
      obtain ⟨hmap, hall⟩ := hS
      cases bt with
      | nil =>
        rw [← hmap] at hhead
        simp at hhead
      | cons x bt' =>
        rw [← hmap] at hhead
        simp only [List.map_cons, List.head?_cons, Option.some.injEq] at hhead
        subst hhead
        have hst : (mkEvent e (e.eventId, x :: bt')).startTime = x.2 := rfl
        rw [hst]
        exact hall x (List.mem_cons_self x bt')

/-- Witness for C7 on a concrete two-storm run: one single-observation storm
and one two-observation storm. -/
theorem c7_start_time_witness :
    ∃ es ps,
      cleanData [exHdr, exHdr2] (List.flatten [[exObs], [exObsC, exObsD]]) =
        .ok (es, ps) ∧
      List.Forall₂ (fun (eb : HeaderRec × List ObsRec) (ce : CleanEvent) =>
        ce.eventId = eb.1.eventId ∧
        ∀ o, eb.2.head? = some o →
          isoparse? (pointTimeStr o) = some ce.startTime)
        ([exHdr, exHdr2].zip [[exObs], [exObsC, exObsD]]) es :=
  ⟨_, _, rfl,
    c7_start_time [exHdr, exHdr2] [[exObs], [exObsC, exObsD]] _ _
      (.cons (by decide) (.cons (by decide) .nil)) (by decide) rfl⟩

/-- C2: for every storm of a well-grouped input whose declared point count
matches its observation count, the normalized `path` geometry is `POINT` on
its single token when the storm has exactly one observation and
`LINESTRING` on the ordered token list when it has more than one; the token
list is the storm's observations in original order, so its vertex count is
the storm's observation count. -/
theorem c2_path_geometry :
    ∀ (evs : List HeaderRec) (blocks : List (List ObsRec))
      (es : List CleanEvent) (ps : List CleanPoint),
      List.Forall₂ (fun e b => b ≠ [] ∧ ∀ o ∈ b, o.eventId = e.eventId)
        evs blocks →
      (evs.map (fun e => e.eventId)).Nodup →
      cleanData evs blocks.flatten = .ok (es, ps) →
      List.Forall₂ (fun (eb : HeaderRec × List ObsRec) (ce : CleanEvent) =>
        eb.1.numPoints = (eb.2.length : Int) →
        ((eb.2.length = 1 → ce.path = PathGeom.point (eb.2.map pathToken)) ∧
         (1 < eb.2.length → ce.path = PathGeom.line (eb.2.map pathToken)) ∧
         (eb.2.map pathToken).length = eb.2.length))
        (evs.zip blocks) es := by
  intro evs blocks es ps hf hnd h
  obtain ⟨bts, hf3, rfl⟩ := cleanData_grouped hf hnd h
  clear h hnd
  induction hf generalizing bts with
  | nil =>
    cases hf3
    simp
  | cons hR hrest ih =>
    rename_i e b evs' blocks'
    cases hf3 with
    | cons hS hf3' =>
      rename_i bt bts'
      simp only [List.zip_cons_cons, List.zipWith_cons_cons, List.forall₂_cons]
      refine ⟨?_, ih bts' hf3'⟩
      intro hnp
      obtain ⟨hmap, -⟩ := hS
      have hpath : (mkEvent e (e.eventId, bt)).path =
          wrapPath e.numPoints (bt.map (fun x => pathToken x.1)) := rfl
      have htoks : bt.map (fun x => pathToken x.1) = b.map pathToken := by
        rw [← hmap, List.map_map]
        rfl
      rw [hpath, htoks, hnp]
      refine ⟨?_, ?_, by simp⟩
      · intro h1
        rw [h1, wrapPath, if_pos (by decide)]
      · intro h1
        rw [wrapPath, if_neg (by omega), if_pos (by omega)]

/-- Witness for C2 on a concrete two-storm run: the one-observation storm
gets a one-token `POINT`, the two-observation storm a two-token
`LINESTRING`. -/
theorem c2_path_geometry_witness :
    ∃ es ps,
      cleanData [exHdr, exHdr2] (List.flatten [[exObs], [exObsC, exObsD]]) =
        .ok (es, ps) ∧
      List.Forall₂ (fun (eb : HeaderRec × List ObsRec) (ce : CleanEvent) =>
        eb.1.numPoints = (eb.2.length : Int) →
        ((eb.2.length = 1 → ce.path = PathGeom.point (eb.2.map pathToken)) ∧
         (1 < eb.2.length → ce.path = PathGeom.line (eb.2.map pathToken)) ∧
         (eb.2.map pathToken).length = eb.2.length))
        ([exHdr, exHdr2].zip [[exObs], [exObsC, exObsD]]) es :=
  ⟨_, _, rfl,
    c2_path_geometry [exHdr, exHdr2] [[exObs], [exObsC, exObsD]] _ _
      (.cons (by decide) (.cons (by decide) .nil)) (by decide) rfl⟩
